import Mathlib

/-! CacheService

A shallow embedding of `src/server/services/cacheService.js`: the key builder
`generateKey`, the engine operations `init`, `get`, `set`, `delete`,
`invalidatePattern`, `clear`, `getStats` and the read-through helper
`cachedQuery`, over an explicit service state.

JavaScript values are embedded as `JsValue`; numbers are the integers of the safe
range, `NaN` and the two infinities.
Everything the service reads from outside (the clock read by the in-memory
cache, the replies of the Redis client, `JSON.parse`) is an explicit input `Env`
of the operation, and every command handed to the Redis client is recorded in
the client's trace.
-/

namespace CacheService

/-! ## JavaScript values and `JSON.stringify` -/

/-- The constant `Number.MAX_SAFE_INTEGER`. -/
def maxSafeInteger : Nat := 9007199254740991

/-- JavaScript numbers: the integers of the safe range, which are written in plain
decimal digits, `NaN`, `Infinity` and `-Infinity`. Fractions and numbers beyond the
safe range are not part of the embedding, and `-0` is not told apart from `0`. -/
inductive JsNumber where
  | int (n : Int) (safe : n.natAbs ≤ maxSafeInteger)
  | nan
  | infinity
  | negInfinity
  deriving DecidableEq

instance : OfNat JsNumber 0 := ⟨.int 0 (by decide)⟩
instance : OfNat JsNumber 1 := ⟨.int 1 (by decide)⟩
instance : OfNat JsNumber 2 := ⟨.int 2 (by decide)⟩
instance : OfNat JsNumber 3 := ⟨.int 3 (by decide)⟩
instance : OfNat JsNumber 7 := ⟨.int 7 (by decide)⟩
instance : OfNat JsNumber 120 := ⟨.int 120 (by decide)⟩
instance : OfNat JsNumber 180 := ⟨.int 180 (by decide)⟩
instance : OfNat JsNumber 300 := ⟨.int 300 (by decide)⟩
instance : OfNat JsNumber 600 := ⟨.int 600 (by decide)⟩
instance : OfNat JsNumber 900 := ⟨.int 900 (by decide)⟩
instance : OfNat JsNumber 3600 := ⟨.int 3600 (by decide)⟩
instance : OfNat JsNumber 7200 := ⟨.int 7200 (by decide)⟩

/-- Truthiness of a number: `0` and `NaN` are falsy. -/
def JsNumber.truthy : JsNumber → Bool
  | .int n _ => n != 0
  | .nan => false
  | .infinity => true
  | .negInfinity => true

/-- A number as `JSON.stringify` writes it: decimal digits for an integer, `null` for
`NaN` and the infinities. -/
def JsNumber.toJSON : JsNumber → String
  | .int n _ => toString n
  | _ => "null"

/-- JavaScript values that callers hand to the service. Functions and symbols are
told apart by an identity only. -/
inductive JsValue where
  | undefined
  | null
  | bool (b : Bool)
  | num (x : JsNumber)
  | str (s : String)
  | arr (xs : List JsValue)
  | obj (ps : List (String × JsValue))
  | function (id : Nat)
  | symbol (id : Nat)

/-- An object, given by its own enumerable string-keyed properties in the order in
which `Object.keys` and `JSON.stringify` enumerate them. For keys that are not
array indices this is the order in which the properties were inserted. -/
abbrev JsObject := List (String × JsValue)

/-- The comparison `v === undefined`. -/
def JsValue.isUndefined : JsValue → Bool
  | .undefined => true
  | _ => false

/-- The comparison `v === null`. -/
def JsValue.isNull : JsValue → Bool
  | .null => true
  | _ => false

/-- Result of running a piece of JavaScript: it returns (an async function
resolves) or it throws (an async function rejects). -/
inductive Outcome (α : Type) where
  | returned (a : α)
  | threw (message : String)
  deriving DecidableEq

/-- Hexadecimal digit of a number below sixteen, lower case. -/
def hexDigit (n : Nat) : Char := (Nat.toDigits 16 n).headD '0'

/-- One character of a string as `JSON.stringify` writes it between quotes. -/
def quoteChar (c : Char) : String :=
  if c = '"' then "\\\""
  else if c = '\\' then "\\\\"
  else if c = '\x08' then "\\b"
  else if c = '\x0c' then "\\f"
  else if c = '\n' then "\\n"
  else if c = '\r' then "\\r"
  else if c = '\t' then "\\t"
  else if c.toNat < 32 then
    "\\u00" ++ String.mk [hexDigit (c.toNat / 16), hexDigit (c.toNat % 16)]
  else String.singleton c

/-- A string as a JSON string literal. -/
def quoteJSONString (s : String) : String :=
  "\"" ++ String.join (s.data.map quoteChar) ++ "\""

mutual
/-- The function `JSON.stringify`: `none` stands for the result `undefined`, which is
what `undefined`, a function and a symbol give. Properties are written in
enumeration order, a property holding such a value is left out, an array element
holding one is written `null`. -/
def jsonStringify : JsValue → Option String
  | .undefined => none
  | .null => some "null"
  | .bool true => some "true"
  | .bool false => some "false"
  | .num x => some x.toJSON
  | .str s => some (quoteJSONString s)
  | .arr xs => some ("[" ++ ",".intercalate (stringifyElems xs) ++ "]")
  | .obj ps => some ("\x7b" ++ ",".intercalate (stringifyProps ps) ++ "\x7d")
  | .function _ => none
  | .symbol _ => none
/-- The elements of an array, serialised. -/
def stringifyElems : List JsValue → List String
  | [] => []
  | x :: xs => ((jsonStringify x).getD "null") :: stringifyElems xs
/-- The properties of an object, serialised in enumeration order. -/
def stringifyProps : List (String × JsValue) → List String
  | [] => []
  | (k, v) :: ps =>
    match jsonStringify v with
    | none => stringifyProps ps
    | some sv => (quoteJSONString k ++ ":" ++ sv) :: stringifyProps ps
end

/-- String conversion of a possibly `undefined` string, as in a template literal or
a `+` concatenation. -/
def templ : Option String → String
  | some s => s
  | none => "undefined"

/-! ## The policy table `cacheStrategies` -/

/-- One entry of `cacheStrategies`. -/
structure Strategy where
  ttl : JsNumber
  keyPrefix : String
  deriving DecidableEq

/-- The own properties of `this.cacheStrategies` (constructor, lines 33-41). -/
def cacheStrategies : List (String × Strategy) :=
  [ ("users", ⟨600, "user:"⟩),
    ("publications", ⟨300, "pub:"⟩),
    ("conversations", ⟨180, "conv:"⟩),
    ("messages", ⟨120, "msg:"⟩),
    ("events", ⟨900, "event:"⟩),
    ("analytics", ⟨3600, "analytics:"⟩),
    ("reports", ⟨7200, "report:"⟩) ]

/-- The property names of `Object.prototype`, which `cacheStrategies` (an object
literal) inherits from. -/
def objectPrototypeKeys : List String :=
  [ "constructor", "__defineGetter__", "__defineSetter__", "hasOwnProperty",
    "__lookupGetter__", "__lookupSetter__", "isPrototypeOf", "propertyIsEnumerable",
    "toString", "valueOf", "__proto__", "toLocaleString" ]

/-- What the member access `this.cacheStrategies[type]` evaluates to. -/
inductive Member where
  /-- An own entry of the table. -/
  | own (s : Strategy)
  /-- A member inherited from `Object.prototype` (a function, or the prototype
  itself for `__proto__`): truthy, without `ttl` and without `keyPrefix`. -/
  | inherited
  /-- No such property: `undefined`. -/
  | undefined
  deriving DecidableEq

/-- The member access `this.cacheStrategies[type]`. -/
def cacheStrategiesGet (type : String) : Member :=
  match cacheStrategies.lookup type with
  | some s => .own s
  | none => if type ∈ objectPrototypeKeys then .inherited else .undefined

/-- Truthiness of the looked-up member (`!strategy` is its negation). -/
def Member.truthy : Member → Bool
  | .own _ => true
  | .inherited => true
  | .undefined => false

/-- The property read `strategy.keyPrefix`. -/
def Member.keyPrefix : Member → Option String
  | .own s => some s.keyPrefix
  | _ => none

/-- The property read `strategy.ttl`. -/
def Member.ttl : Member → Option JsNumber
  | .own s => some s.ttl
  | _ => none

/-! ## `generateKey` (lines 79-91) -/

/-- The local `paramString` of `generateKey`: empty when `params` has no own
enumerable property, otherwise a colon and `JSON.stringify(params)`. -/
def paramString (params : JsObject) : String :=
  if params.length > 0 then ":" ++ templ (jsonStringify (.obj params)) else ""

/-- The method `generateKey(type, identifier, params = {})`. -/
def generateKey (type identifier : String) (params : JsObject) : Outcome String :=
  let strategy := cacheStrategiesGet type
  if !strategy.truthy then
    .threw ("Type de cache '" ++ type ++ "' non supporté")
  else
    let key := templ strategy.keyPrefix ++ identifier
    .returned (key ++ paramString params)

/-! ## The in-memory backend (`node-cache`, options of lines 7-12) -/

/-- The expiry time `t` of a wrapped value: a number of milliseconds, `Infinity` or
`-Infinity`. The number is kept exact; compared with a clock reading it behaves as
the double that `node-cache` stores. -/
inductive Livetime where
  | finite (ms : Int)
  | infinity
  | negInfinity
  deriving DecidableEq

/-- The test `data.t !== 0 && data.t < Date.now()` of `_check`. -/
def Livetime.expired (t : Livetime) (now : Nat) : Bool :=
  match t with
  | .finite ms => decide (ms ≠ 0 ∧ ms < now)
  | .infinity => false
  | .negInfinity => true

/-- A wrapped value of the in-memory cache: `t` is the expiry time (`0` for no expiry),
`v` the value itself (`useClones: false`). -/
structure CacheEntry where
  t : Livetime
  v : JsValue

/-- The in-memory cache: its table of wrapped values. -/
structure NodeCache where
  data : List (String × CacheEntry)

/-- The option `stdTTL: 300`. -/
def stdTTL : JsNumber := 300

/-- The expiry time computed by `_wrap` at clock reading `now`: `0` for the ttl `0`,
`now + ttl * 1000` for a truthy ttl, and the standard ttl for `NaN`. -/
def livetime (now : Nat) (ttl : JsNumber) : Livetime :=
  match ttl with
  | .int n _ => if n = 0 then .finite 0 else .finite (now + n * 1000)
  | .infinity => .infinity
  | .negInfinity => .negInfinity
  | .nan => .finite (now + 300 * 1000)

/-- The value handed out by `_unwrap`: `null` for a stored `null` or `undefined`. -/
def unwrap (v : JsValue) : JsValue :=
  if v.isNull || v.isUndefined then .null else v

/-- The call `memoryCache.del(key)`. -/
def NodeCache.del (c : NodeCache) (key : String) : NodeCache :=
  ⟨c.data.filter (fun p => p.1 != key)⟩

/-- The call `memoryCache.set(key, value, ttl)` at clock reading `now`: a missing ttl is
`stdTTL`, and the entry is wrapped with the expiry time of `livetime`. It returns
`true`. -/
def NodeCache.set (c : NodeCache) (now : Nat) (key : String) (value : JsValue)
    (ttl : Option JsNumber) : NodeCache :=
  ⟨(key, ⟨livetime now (ttl.getD stdTTL), value⟩) :: (c.del key).data⟩

/-- The call `memoryCache.get(key)` at clock reading `now`: the unwrapped value of a live
entry, `undefined` when there is none; an expired entry is deleted
(`deleteOnExpire: true`). -/
def NodeCache.get (c : NodeCache) (now : Nat) (key : String) : JsValue × NodeCache :=
  match c.data.lookup key with
  | none => (.undefined, c)
  | some e => if e.t.expired now then (.undefined, c.del key) else (unwrap e.v, c)

/-- The call `memoryCache.flushAll()`. -/
def NodeCache.flushAll (_c : NodeCache) : NodeCache := ⟨[]⟩

/-! ## The networked backend (`ioredis` client) -/

/-- A command handed to the Redis client. -/
inductive RedisCommand where
  | ping
  | get (key : String)
  | setex (key : String) (ttl : Option JsNumber) (value : Option String)
  | del (keys : List String)
  | keys (pattern : String)
  | flushdb

/-- The Redis client object `this.redis`: the commands it was handed, oldest first. -/
structure RedisClient where
  sent : List RedisCommand

/-- Hand one more command to the client. -/
def RedisClient.send (c : RedisClient) (cmd : RedisCommand) : RedisClient :=
  ⟨c.sent ++ [cmd]⟩

/-- What the outside world answers during one operation. -/
structure Env where
  /-- Clock reading `Date.now()` of the in-memory cache, in milliseconds. -/
  now : Nat
  /-- Reply to `redis.get`: a string, `null` (`none`), or a rejection. -/
  redisGet : Outcome (Option String)
  /-- Reply to `redis.setex`, `redis.del` or `redis.flushdb`. -/
  redisWrite : Outcome Unit
  /-- Reply to `redis.keys`. -/
  redisKeys : Outcome (List String)
  /-- The function `JSON.parse`. -/
  jsonParse : String → Outcome JsValue

/-! ## The service state -/

/-- The counters `this.cacheStats`. -/
structure CacheStats where
  hits : Nat
  misses : Nat
  sets : Nat
  deletes : Nat

/-- The fields of a `CacheService` instance that change at run time. -/
structure Service where
  memoryCache : NodeCache
  redis : Option RedisClient
  isInitialized : Bool
  cacheStats : CacheStats

/-- The state built by the constructor (lines 5-42). -/
def Service.new : Service :=
  { memoryCache := ⟨[]⟩, redis := none, isInitialized := false,
    cacheStats := ⟨0, 0, 0, 0⟩ }

/-- The statement `this.cacheStats.hits++`. -/
def Service.hit (s : Service) : Service :=
  { s with cacheStats := { s.cacheStats with hits := s.cacheStats.hits + 1 } }

/-- The statement `this.cacheStats.misses++`. -/
def Service.miss (s : Service) : Service :=
  { s with cacheStats := { s.cacheStats with misses := s.cacheStats.misses + 1 } }

/-- Hand a command to `this.redis`. -/
def Service.sendRedis (s : Service) (client : RedisClient) (cmd : RedisCommand) : Service :=
  { s with redis := some (client.send cmd) }

/-! ## `init` and `initRedis` (lines 45-76) -/

/-- How the attempt to reach Redis inside `initRedis` goes. -/
inductive RedisAttempt where
  /-- The call `require('ioredis')` throws. -/
  | requireThrows (message : String)
  /-- The constructor `new Redis(this.redisConfig)` throws. -/
  | constructorThrows (message : String)
  /-- The client object is created and `ping()` rejects. -/
  | pingRejects (message : String)
  /-- The client object is created and `ping()` resolves. -/
  | pingResolves

/-- The method `initRedis()`: `this.redis` is assigned before the ping is awaited, and
any error is rethrown with a new message. -/
def initRedis (s : Service) (attempt : RedisAttempt) : Outcome Unit × Service :=
  match attempt with
  | .requireThrows m => (.threw ("Impossible de connecter Redis: " ++ m), s)
  | .constructorThrows m => (.threw ("Impossible de connecter Redis: " ++ m), s)
  | .pingRejects m =>
    (.threw ("Impossible de connecter Redis: " ++ m), { s with redis := some ⟨[.ping]⟩ })
  | .pingResolves => (.returned (), { s with redis := some ⟨[.ping]⟩ })

/-- The method `init()`; `nodeEnv` is `process.env.NODE_ENV`. -/
def init (s : Service) (nodeEnv : Option String) (attempt : RedisAttempt) :
    Outcome Unit × Service :=
  if s.isInitialized then (.returned (), s)
  else if nodeEnv = some "development" then
    (.returned (), { s with isInitialized := true })
  else
    match initRedis s attempt with
    | (.returned _, s1) => (.returned (), { s1 with isInitialized := true })
    | (.threw _, s1) => (.returned (), { s1 with isInitialized := true })

/-! ## `get`, `set`, `delete` (lines 94-162) -/

/-- Truthiness of a reply of `redis.get`: `null` and the empty string are falsy. -/
def replyTruthy : Option String → Bool
  | none => false
  | some v => v != ""

/-- The method `get(type, identifier, params = {})`. -/
def get (s : Service) (env : Env) (type identifier : String) (params : JsObject) :
    Outcome JsValue × Service :=
  match generateKey type identifier params with
  | .threw _ => (.returned .null, s)
  | .returned key =>
    match s.redis with
    | some client =>
      let s1 := s.sendRedis client (.get key)
      match env.redisGet with
      | .threw _ => (.returned .null, s1)
      | .returned value =>
        if replyTruthy value then
          match env.jsonParse (value.getD "") with
          | .threw _ => (.returned .null, s1.hit)
          | .returned v => (.returned v, s1.hit)
        else (.returned .null, s1.miss)
    | none =>
      let r := s.memoryCache.get env.now key
      let s1 := { s with memoryCache := r.2 }
      if !r.1.isUndefined then (.returned r.1, s1.hit)
      else (.returned .null, s1.miss)

/-- The expression `customTTL || strategy.ttl`, for a `customTTL` that is `null` or a
number: `null`, `0` and `NaN` are falsy. -/
def orTtl (customTTL : Option JsNumber) (strategyTtl : Option JsNumber) :
    Option JsNumber :=
  match customTTL with
  | some x => if x.truthy then some x else strategyTtl
  | none => strategyTtl

/-- The statement `this.cacheStats.sets++`. -/
def Service.countSet (s : Service) : Service :=
  { s with cacheStats := { s.cacheStats with sets := s.cacheStats.sets + 1 } }

/-- The statement `this.cacheStats.deletes++`. -/
def Service.countDelete (s : Service) : Service :=
  { s with cacheStats := { s.cacheStats with deletes := s.cacheStats.deletes + 1 } }

/-- The method `set(type, identifier, value, params = {}, customTTL = null)`. -/
def set (s : Service) (env : Env) (type identifier : String) (value : JsValue)
    (params : JsObject) (customTTL : Option JsNumber) : Outcome Bool × Service :=
  match generateKey type identifier params with
  | .threw _ => (.returned false, s)
  | .returned key =>
    let strategy := cacheStrategiesGet type
    let ttl := orTtl customTTL strategy.ttl
    match s.redis with
    | some client =>
      let s1 := s.sendRedis client (.setex key ttl (jsonStringify value))
      match env.redisWrite with
      | .threw _ => (.returned false, s1)
      | .returned _ => (.returned true, s1.countSet)
    | none =>
      let s1 := { s with memoryCache := s.memoryCache.set env.now key value ttl }
      (.returned true, s1.countSet)

/-- The method `delete(type, identifier, params = {})`. -/
def delete (s : Service) (env : Env) (type identifier : String) (params : JsObject) :
    Outcome Bool × Service :=
  match generateKey type identifier params with
  | .threw _ => (.returned false, s)
  | .returned key =>
    match s.redis with
    | some client =>
      let s1 := s.sendRedis client (.del [key])
      match env.redisWrite with
      | .threw _ => (.returned false, s1)
      | .returned _ => (.returned true, s1.countDelete)
    | none =>
      let s1 := { s with memoryCache := s.memoryCache.del key }
      (.returned true, s1.countDelete)

/-! ## `invalidatePattern`, `getStats`, `clear` (lines 165-216) -/

/-- The method `invalidatePattern(pattern)`. -/
def invalidatePattern (s : Service) (env : Env) (pattern : String) : Outcome Bool × Service :=
  match s.redis with
  | some client =>
    let s1 := s.sendRedis client (.keys pattern)
    match env.redisKeys with
    | .threw _ => (.returned false, s1)
    | .returned keys =>
      if keys.length > 0 then
        let s2 := s.sendRedis (client.send (.keys pattern)) (.del keys)
        match env.redisWrite with
        | .threw _ => (.returned false, s2)
        | .returned _ => (.returned true, s2)
      else (.returned true, s1)
  | none => (.returned true, { s with memoryCache := s.memoryCache.flushAll })

/-- The object returned by `getStats()`, without `hitRate` (a formatted
floating-point percentage) and `memoryUsage` (the library's own statistics). -/
structure Stats where
  hits : Nat
  misses : Nat
  sets : Nat
  deletes : Nat
  totalRequests : Nat
  redisConnected : Bool

/-- The method `getStats()`. -/
def getStats (s : Service) : Stats :=
  { hits := s.cacheStats.hits, misses := s.cacheStats.misses,
    sets := s.cacheStats.sets, deletes := s.cacheStats.deletes,
    totalRequests := s.cacheStats.hits + s.cacheStats.misses,
    redisConnected := s.redis.isSome }

/-- The method `clear()`. -/
def clear (s : Service) (env : Env) : Outcome Bool × Service :=
  match s.redis with
  | some client =>
    let s1 := s.sendRedis client .flushdb
    match env.redisWrite with
    | .threw _ => (.returned false, s1)
    | .returned _ => (.returned true, s1)
  | none => (.returned true, { s with memoryCache := s.memoryCache.flushAll })

/-! ## `cachedQuery` (lines 219-234) -/

/-- What a call of `cachedQuery` leaves behind: its outcome, the service state and
the number of times it invoked the producer `queryFn`. -/
structure QueryRun where
  outcome : Outcome JsValue
  service : Service
  producerCalls : Nat

/-- The method `cachedQuery(type, identifier, queryFn, params = {}, ttl = null)`. The lookup runs
under `envGet`, the write-back under `envSet`. -/
def cachedQuery (s : Service) (envGet envSet : Env) (type identifier : String)
    (queryFn : Unit → Outcome JsValue) (params : JsObject) (ttl : Option JsNumber) :
    QueryRun :=
  match get s envGet type identifier params with
  | (.threw e, s1) => ⟨.threw e, s1, 0⟩
  | (.returned result, s1) =>
    if result.isNull then
      match queryFn () with
      | .threw e => ⟨.threw e, s1, 1⟩
      | .returned result =>
        if !result.isNull && !result.isUndefined then
          match set s1 envSet type identifier result params ttl with
          | (.threw e, s2) => ⟨.threw e, s2, 1⟩
          | (.returned _, s2) => ⟨.returned result, s2, 1⟩
        else ⟨.returned result, s1, 1⟩
    else ⟨.returned result, s1, 0⟩

/-- A sample of what the outside world answers: clock reading `now`, Redis
unreachable, `JSON.parse` rejecting its input. -/
def Env.offline (now : Nat) : Env :=
  { now := now, redisGet := .threw "ECONNREFUSED", redisWrite := .threw "ECONNREFUSED",
    redisKeys := .threw "ECONNREFUSED", jsonParse := fun _ => .threw "SyntaxError" }

/-- The tags registered in the policy table: the own keys of `cacheStrategies`. -/
def registeredTags : List String := cacheStrategies.map Prod.fst

/-! ## Sequences of `get` calls -/

/-- One call `get(type, identifier, params)` together with what the outside world
answers during it. -/
structure GetCall where
  env : Env
  type : String
  identifier : String
  params : JsObject

/-- Run a sequence of `get` calls one after the other. -/
def runGets (s : Service) : List GetCall → Service
  | [] => s
  | c :: cs => runGets (get s c.env c.type c.identifier c.params).2 cs

/-- The in-memory table holds an entry under `key` that has not expired at `now`. -/
def NodeCache.hasLive (c : NodeCache) (now : Nat) (key : String) : Bool :=
  match c.data.lookup key with
  | none => false
  | some e => !e.t.expired now

/-- Whether a call finds what `found` looks for in the table, at the moment it runs. -/
def GetCall.finds (found : NodeCache → Nat → String → Bool) (s : Service) (c : GetCall) :
    Bool :=
  match generateKey c.type c.identifier c.params with
  | .threw _ => false
  | .returned key => found s.memoryCache c.env.now key

/-- Number of calls of a sequence that find what `found` looks for, each judged on
the state its predecessors leave. -/
def countFinding (found : NodeCache → Nat → String → Bool) (s : Service) :
    List GetCall → Nat
  | [] => 0
  | c :: cs =>
    (if c.finds found s then 1 else 0)
      + countFinding found (get s c.env c.type c.identifier c.params).2 cs

/-! ## Writes seen at the active backend -/

/-- The step from `s` to `s2` hands `value` to the active backend under `key` with a
time-to-live of `ttl` seconds: the in-memory cache receives `set(key, value, ttl)` at
clock reading `now`, or the Redis client receives `SETEX key ttl JSON.stringify(value)`. -/
def writesWithTtl (s s2 : Service) (now : Nat) (key : String) (value : JsValue)
    (ttl : JsNumber) : Prop :=
  match s.redis with
  | none => s2.memoryCache = s.memoryCache.set now key value (some ttl)
  | some client => s2.redis = some (client.send (.setex key (some ttl) (jsonStringify value)))

/-- The state of a fresh service after `set("users", "1", 1)`, `set("users", "2", 2)` and
`set("publications", "1", 3)`. -/
def threeEntries : Service :=
  (set (set (set Service.new (Env.offline 0) "users" "1" (.num 1) [] none).2
    (Env.offline 0) "users" "2" (.num 2) [] none).2
    (Env.offline 0) "publications" "1" (.num 3) [] none).2

/-! ## Reading a serialised value back -/

/-- Value of a decimal digit character. -/
def digitValue (c : Char) : Nat := c.toNat - 48

/-- Number read from a list of decimal digits, most significant first. -/
def readDigits (l : List Char) : Nat := l.foldl (fun a c => a * 10 + digitValue c) 0

/-- Characters that a serialised number is made of. -/
def isNumChar (c : Char) : Bool := c.isDigit || c == '-'

/-- Rest of a text after a serialised value: empty, or starting with a comma or a
closing bracket or brace. -/
def Delimited (r : List Char) : Prop := ∀ c ∈ r.head?, c = ',' ∨ c = ']' ∨ c = '}'

/-- Value of a lower-case hexadecimal digit. -/
def hexValue (c : Char) : Nat := if c.isDigit then c.toNat - 48 else c.toNat - 87

/-- Reads back the character behind a backslash. -/
def unescapeChar : List Char → Option (Char × List Char)
  | [] => none
  | e :: r =>
    if e = '"' then some ('"', r)
    else if e = '\\' then some ('\\', r)
    else if e = 'b' then some ('\x08', r)
    else if e = 'f' then some ('\x0c', r)
    else if e = 'n' then some ('\n', r)
    else if e = 'r' then some ('\r', r)
    else if e = 't' then some ('\t', r)
    else
      match r with
      | _ :: _ :: h1 :: h2 :: r2 => some (Char.ofNat (16 * hexValue h1 + hexValue h2), r2)
      | _ => none

/-- Reads back one character from the front of a quoted text. -/
def unquoteChar : List Char → Option (Char × List Char)
  | [] => none
  | c :: r => if c = '\\' then unescapeChar r else some (c, r)

/-- The text between the quotes of a JSON string literal. -/
def quotedBody (l : List Char) : List Char := (l.map (fun c => (quoteChar c).data)).flatten

mutual
/-- The value is JSON data: `null`, a boolean, an integer, a string, or an array or
object of JSON data. At no depth does it hold `undefined`, a function, a symbol,
`NaN` or an infinity. -/
def JsValue.isJsonData : JsValue → Bool
  | .undefined => false
  | .null => true
  | .bool _ => true
  | .num (.int _ _) => true
  | .num .nan => false
  | .num .infinity => false
  | .num .negInfinity => false
  | .str _ => true
  | .arr xs => allJsonData xs
  | .obj ps => propsJsonData ps
  | .function _ => false
  | .symbol _ => false
/-- All elements are JSON data. -/
def allJsonData : List JsValue → Bool
  | [] => true
  | x :: xs => x.isJsonData && allJsonData xs
/-- All property values are JSON data. -/
def propsJsonData : List (String × JsValue) → Bool
  | [] => true
  | (_, v) :: ps => v.isJsonData && propsJsonData ps
end

/-- The characters of `JSON.stringify(v)`. -/
def valueText (v : JsValue) : List Char := ((jsonStringify v).getD "").data

/-- The characters of a list of texts, each with a comma in front. -/
def commaTail (l : List String) : List Char := (l.map (fun x => ',' :: x.data)).flatten

/-- Class of a value by its constructor. -/
def JsValue.tag : JsValue → Nat
  | .undefined => 0
  | .null => 1
  | .bool true => 2
  | .bool false => 3
  | .num _ => 4
  | .str _ => 5
  | .arr _ => 6
  | .obj _ => 7
  | .function _ => 0
  | .symbol _ => 0

/-- Class of a serialised value by its first character. -/
def charTag (c : Char) : Nat :=
  if isNumChar c then 4
  else if c = 'n' then 1
  else if c = 't' then 2
  else if c = 'f' then 3
  else if c = '"' then 5
  else if c = '[' then 6
  else if c = '\x7b' then 7
  else 0

/-! ## Lemmas on the key builder -/

theorem generateKey_of_own {type : String} {st : Strategy}
    (h : cacheStrategiesGet type = .own st) (identifier : String) (params : JsObject) :
    generateKey type identifier params
      = .returned (st.keyPrefix ++ identifier ++ paramString params) := by
  simp [generateKey, h, Member.truthy, Member.keyPrefix, templ]

theorem generateKey_of_undefined {type : String}
    (h : cacheStrategiesGet type = .undefined) (identifier : String) (params : JsObject) :
    generateKey type identifier params
      = .threw ("Type de cache '" ++ type ++ "' non supporté") := by
  simp [generateKey, h, Member.truthy]

theorem cacheStrategiesGet_of_lookup {type : String} {st : Strategy}
    (h : cacheStrategies.lookup type = some st) : cacheStrategiesGet type = .own st := by
  simp [cacheStrategiesGet, h]

theorem lookup_eq_none_of_not_mem_keys {β : Type} (l : List (String × β)) (a : String)
    (h : a ∉ l.map Prod.fst) : l.lookup a = none := by
  induction l with
  | nil => rfl
  | cons p l ih =>
    obtain ⟨k, v⟩ := p
    simp only [List.map_cons, List.mem_cons, not_or] at h
    have hk : (a == k) = false := beq_eq_false_iff_ne.mpr h.1
    simp [List.lookup, hk, ih h.2]

theorem lookup_isSome_of_mem_keys {β : Type} (l : List (String × β)) (a : String)
    (h : a ∈ l.map Prod.fst) : ∃ b, l.lookup a = some b := by
  induction l with
  | nil => simp at h
  | cons p l ih =>
    obtain ⟨k, v⟩ := p
    by_cases hk : a = k
    · subst hk
      exact ⟨v, by simp [List.lookup]⟩
    · have hk2 : (a == k) = false := beq_eq_false_iff_ne.mpr hk
      simp only [List.map_cons, List.mem_cons, hk, false_or] at h
      obtain ⟨b, hb⟩ := ih h
      exact ⟨b, by simp [List.lookup, hk2, hb]⟩

theorem lookup_isSome_of_registered {type : String} (h : type ∈ registeredTags) :
    ∃ st, cacheStrategies.lookup type = some st :=
  lookup_isSome_of_mem_keys cacheStrategies type h

theorem lookup_eq_none_of_not_registered {type : String} (h : type ∉ registeredTags) :
    cacheStrategies.lookup type = none :=
  lookup_eq_none_of_not_mem_keys cacheStrategies type h

theorem cacheStrategiesGet_of_unknown {type : String} (h : type ∉ registeredTags)
    (hp : type ∉ objectPrototypeKeys) : cacheStrategiesGet type = .undefined := by
  simp [cacheStrategiesGet, lookup_eq_none_of_not_registered h, hp]

theorem eq_of_perm_of_keys_eq :
    ∀ (p1 p2 : JsObject), p1.Perm p2 → p1.map Prod.fst = p2.map Prod.fst →
      (p1.map Prod.fst).Nodup → p1 = p2
  | [], [], _, _, _ => rfl
  | [], _ :: _, _, hk, _ => by simp at hk
  | _ :: _, [], _, hk, _ => by simp at hk
  | (k1, v1) :: t1, (k2, v2) :: t2, hperm, hk, hnd => by
    simp only [List.map_cons, List.cons.injEq] at hk
    obtain ⟨hk1, hkt⟩ := hk
    subst hk1
    simp only [List.map_cons, List.nodup_cons] at hnd
    have hmem : (k1, v1) ∈ (k1, v2) :: t2 := hperm.subset (List.mem_cons_self _ _)
    have hv : v1 = v2 := by
      rcases List.mem_cons.mp hmem with h | h
      · exact (Prod.mk.inj h).2
      · exact absurd (hkt ▸ List.mem_map_of_mem Prod.fst h) hnd.1
    subst hv
    have ht : t1 = t2 := eq_of_perm_of_keys_eq t1 t2 (List.Perm.cons_inv hperm) hkt hnd.2
    rw [ht]

/-! ## Lemmas on the policy table and the in-memory backend -/

theorem mem_of_lookup_eq_some {β : Type} (l : List (String × β)) (a : String) (b : β)
    (h : l.lookup a = some b) : (a, b) ∈ l := by
  induction l with
  | nil => simp at h
  | cons p l ih =>
    obtain ⟨k, v⟩ := p
    by_cases hk : a = k
    · subst hk
      simp only [List.lookup, beq_self_eq_true, Option.some.injEq] at h
      subst h
      exact List.mem_cons_self _ _
    · have hk2 : (a == k) = false := beq_eq_false_iff_ne.mpr hk
      simp only [List.lookup, hk2] at h
      exact List.mem_cons_of_mem _ (ih h)

theorem ttl_ge_of_lookup {type : String} {st : Strategy}
    (h : cacheStrategies.lookup type = some st) :
    ∃ (n : Int) (hs : n.natAbs ≤ maxSafeInteger), st.ttl = .int n hs ∧ 120 ≤ n := by
  have hmem := mem_of_lookup_eq_some cacheStrategies type st h
  simp only [cacheStrategies, List.mem_cons, Prod.mk.injEq, List.mem_nil_iff, or_false] at hmem
  rcases hmem with h | h | h | h | h | h | h <;>
    (rw [h.2]; exact ⟨_, _, rfl, by decide⟩)

theorem unwrap_of_not_undefined {v : JsValue} (hv : v.isUndefined = false) : unwrap v = v := by
  cases v <;> simp [unwrap, JsValue.isNull, JsValue.isUndefined] at hv ⊢

theorem unwrap_isUndefined (v : JsValue) : (unwrap v).isUndefined = false := by
  cases v <;> simp [unwrap, JsValue.isNull, JsValue.isUndefined]

theorem NodeCache.lookup_set (c : NodeCache) (now : Nat) (key : String) (v : JsValue)
    (n : Int) (hs : n.natAbs ≤ maxSafeInteger) (hn : 0 < n) :
    (c.set now key v (some (.int n hs))).data.lookup key
      = some ⟨.finite (now + n * 1000), v⟩ := by
  have h0 : n ≠ 0 := by omega
  simp [NodeCache.set, List.lookup, livetime, h0]

theorem NodeCache.get_set (c : NodeCache) (now now2 : Nat) (key : String) (v : JsValue)
    (n : Int) (hs : n.natAbs ≤ maxSafeInteger) (hn : 0 < n)
    (hnow : (now2 : Int) ≤ now + n * 1000) :
    (c.set now key v (some (.int n hs))).get now2 key
      = (unwrap v, c.set now key v (some (.int n hs))) := by
  have hnot : Livetime.expired (.finite (now + n * 1000)) now2 = false := by
    simp only [Livetime.expired, decide_eq_false_iff_not]
    intro h
    omega
  simp only [NodeCache.get, NodeCache.lookup_set c now key v n hs hn, hnot]
  rfl

theorem set_local_of_own {s : Service} {type : String} {st : Strategy}
    (hlocal : s.redis = none) (hst : cacheStrategiesGet type = .own st) (env : Env)
    (identifier : String) (value : JsValue) (params : JsObject)
    (customTTL : Option JsNumber) :
    set s env type identifier value params customTTL
      = (.returned true,
          Service.countSet { s with memoryCache :=
            (s.memoryCache.set env.now (st.keyPrefix ++ identifier ++ paramString params)
              value (orTtl customTTL (some st.ttl))) }) := by
  simp [set, generateKey_of_own hst, hst, hlocal, Member.ttl]

theorem get_local_of_own {s : Service} {type : String} {st : Strategy}
    (hlocal : s.redis = none) (hst : cacheStrategiesGet type = .own st) (env : Env)
    (identifier : String) (params : JsObject) :
    get s env type identifier params
      = if !(s.memoryCache.get env.now
              (st.keyPrefix ++ identifier ++ paramString params)).1.isUndefined then
          (.returned (s.memoryCache.get env.now
              (st.keyPrefix ++ identifier ++ paramString params)).1,
            Service.hit { s with memoryCache := (s.memoryCache.get env.now
              (st.keyPrefix ++ identifier ++ paramString params)).2 })
        else
          (.returned .null,
            Service.miss { s with memoryCache := (s.memoryCache.get env.now
              (st.keyPrefix ++ identifier ++ paramString params)).2 }) := by
  simp [get, generateKey_of_own hst, hlocal]

theorem NodeCache.get_isUndefined (c : NodeCache) (now : Nat) (key : String) :
    (c.get now key).1.isUndefined = !c.hasLive now key := by
  unfold NodeCache.get NodeCache.hasLive
  cases c.data.lookup key with
  | none => rfl
  | some e =>
    by_cases h : e.t.expired now = true
    · simp [h, JsValue.isUndefined]
    · simp [h, unwrap_isUndefined]

theorem get_local_step {s : Service} (hlocal : s.redis = none) (c : GetCall)
    (hreg : c.type ∈ registeredTags) :
    (get s c.env c.type c.identifier c.params).2.redis = none
    ∧ (get s c.env c.type c.identifier c.params).2.cacheStats.hits
        = s.cacheStats.hits + (if c.finds NodeCache.hasLive s then 1 else 0)
    ∧ (get s c.env c.type c.identifier c.params).2.cacheStats.misses
        = s.cacheStats.misses + (if c.finds NodeCache.hasLive s then 0 else 1)
    ∧ (get s c.env c.type c.identifier c.params).2.cacheStats.sets = s.cacheStats.sets
    ∧ (get s c.env c.type c.identifier c.params).2.cacheStats.deletes
        = s.cacheStats.deletes := by
  obtain ⟨st, hlook⟩ := lookup_isSome_of_registered hreg
  have hst := cacheStrategiesGet_of_lookup hlook
  rw [get_local_of_own hlocal hst]
  simp only [GetCall.finds, generateKey_of_own hst, NodeCache.get_isUndefined,
    Bool.not_not]
  by_cases h : s.memoryCache.hasLive c.env.now
      (st.keyPrefix ++ c.identifier ++ paramString c.params) = true
  · simp [h, Service.hit, hlocal]
  · simp [h, Service.miss, hlocal]

theorem runGets_counters (calls : List GetCall) :
    ∀ (s : Service), s.redis = none → (∀ c ∈ calls, c.type ∈ registeredTags) →
      countFinding NodeCache.hasLive s calls ≤ calls.length
      ∧ (runGets s calls).cacheStats.hits
          = s.cacheStats.hits + countFinding NodeCache.hasLive s calls
      ∧ (runGets s calls).cacheStats.misses
          = s.cacheStats.misses
            + (calls.length - countFinding NodeCache.hasLive s calls)
      ∧ (runGets s calls).cacheStats.sets = s.cacheStats.sets
      ∧ (runGets s calls).cacheStats.deletes = s.cacheStats.deletes := by
  induction calls with
  | nil => intro s _ _; simp [runGets, countFinding]
  | cons c cs ih =>
    intro s hlocal hreg
    obtain ⟨hr, h1, h2, h3, h4⟩ := get_local_step hlocal c (hreg c (List.mem_cons_self _ _))
    obtain ⟨hle, hh, hm, hs, hd⟩ := ih (get s c.env c.type c.identifier c.params).2 hr
      (fun d hd => hreg d (List.mem_cons_of_mem _ hd))
    simp only [runGets, countFinding, List.length_cons]
    rw [hh, hm, hs, hd, h1, h2, h3, h4]
    refine ⟨?_, ?_, ?_, rfl, rfl⟩ <;> split <;> omega

theorem get_local_cold {s : Service} {type : String} {st : Strategy}
    (hlocal : s.redis = none) (hst : cacheStrategiesGet type = .own st) (env : Env)
    (identifier : String) (params : JsObject)
    (hcold : s.memoryCache.data.lookup (st.keyPrefix ++ identifier ++ paramString params)
      = none) :
    get s env type identifier params = (.returned .null, s.miss) := by
  rw [get_local_of_own hlocal hst]
  simp [NodeCache.get, hcold, JsValue.isUndefined]

theorem isNull_eq_true {v : JsValue} (h : v.isNull = true) : v = .null := by
  cases v <;> simp [JsValue.isNull] at h
  rfl

theorem set_get_local_roundtrip (s : Service) (envSet envGet : Env) {type : String}
    {st : Strategy} (hlocal : s.redis = none) (hlook : cacheStrategies.lookup type = some st)
    (identifier : String) (v : JsValue) (params : JsObject)
    (hv : v.isUndefined = false) (hsoon : envGet.now ≤ envSet.now + 120 * 1000) :
    (set s envSet type identifier v params none).1 = .returned true
    ∧ (get (set s envSet type identifier v params none).2 envGet type identifier params).1
        = .returned v := by
  have hst := cacheStrategiesGet_of_lookup hlook
  obtain ⟨n, hs, httl, hge⟩ := ttl_ge_of_lookup hlook
  rw [set_local_of_own hlocal hst]
  refine ⟨rfl, ?_⟩
  rw [get_local_of_own (by simpa [Service.countSet] using hlocal) hst]
  simp only [Service.countSet, orTtl, httl]
  rw [NodeCache.get_set _ _ _ _ _ n hs (by omega) (by omega)]
  simp [hv, unwrap_of_not_undefined hv]

theorem set_writes_resolved_ttl (s : Service) (env : Env) {type : String} {st : Strategy}
    (hst : cacheStrategiesGet type = .own st) (identifier : String) (value : JsValue)
    (params : JsObject) (customTTL : Option JsNumber) (ttl : JsNumber)
    (httl : orTtl customTTL (some st.ttl) = some ttl) :
    writesWithTtl s (set s env type identifier value params customTTL).2 env.now
      (st.keyPrefix ++ identifier ++ paramString params) value ttl := by
  unfold writesWithTtl
  cases hr : s.redis with
  | none =>
    rw [set_local_of_own hr hst, httl]
    rfl
  | some client =>
    simp only [set, generateKey_of_own hst, hst, hr, Member.ttl, httl, Service.sendRedis]
    cases env.redisWrite <;> rfl

theorem get_after_flush (s : Service) (env : Env) (type identifier : String)
    (params : JsObject) (hlocal : s.redis = none) (hempty : s.memoryCache.data = []) :
    (get s env type identifier params).1 = .returned .null := by
  unfold get
  cases generateKey type identifier params with
  | threw e => rfl
  | returned key => simp [hlocal, NodeCache.get, hempty, JsValue.isUndefined]

theorem filter_ne_key_of_lookup_none {β : Type} (l : List (String × β)) (key : String)
    (h : l.lookup key = none) : l.filter (fun p => p.1 != key) = l := by
  induction l with
  | nil => rfl
  | cons p l ih =>
    obtain ⟨k, v⟩ := p
    by_cases hk : key = k
    · subst hk
      simp [List.lookup] at h
    · have hk2 : (key == k) = false := beq_eq_false_iff_ne.mpr hk
      have hk3 : (k != key) = true := by
        simp only [bne_iff_ne, ne_eq]
        exact fun e => hk e.symm
      simp only [List.lookup, hk2] at h
      simp only [List.filter, hk3, ih h]

theorem NodeCache.del_absent (c : NodeCache) (key : String)
    (h : c.data.lookup key = none) : c.del key = c := by
  cases c with
  | mk data =>
    simp only [NodeCache.del]
    rw [filter_ne_key_of_lookup_none data key h]

theorem delete_local_of_own {s : Service} {type : String} {st : Strategy}
    (hlocal : s.redis = none) (hst : cacheStrategiesGet type = .own st) (env : Env)
    (identifier : String) (params : JsObject) :
    delete s env type identifier params
      = (.returned true,
          Service.countDelete { s with memoryCache :=
            (s.memoryCache.del (st.keyPrefix ++ identifier ++ paramString params)) }) := by
  simp [delete, generateKey_of_own hst, hlocal]

theorem key_data (st : Strategy) (identifier : String) (params : JsObject) :
    (st.keyPrefix ++ identifier ++ paramString params).data
      = st.keyPrefix.data ++ (identifier.data ++ (paramString params).data) := by
  rw [String.data_append, String.data_append, List.append_assoc]

theorem type_eq_of_prefix_append_eq {type1 type2 : String} {st1 st2 : Strategy}
    (h1 : cacheStrategies.lookup type1 = some st1)
    (h2 : cacheStrategies.lookup type2 = some st2) (x y : List Char)
    (h : st1.keyPrefix.data ++ x = st2.keyPrefix.data ++ y) : type1 = type2 := by
  have hm1 := mem_of_lookup_eq_some cacheStrategies type1 st1 h1
  have hm2 := mem_of_lookup_eq_some cacheStrategies type2 st2 h2
  have hh := congrArg List.head? h
  simp only [cacheStrategies, List.mem_cons, Prod.mk.injEq, List.mem_nil_iff, or_false]
    at hm1 hm2
  rcases hm1 with ⟨rfl, rfl⟩ | ⟨rfl, rfl⟩ | ⟨rfl, rfl⟩ | ⟨rfl, rfl⟩ | ⟨rfl, rfl⟩
      | ⟨rfl, rfl⟩ | ⟨rfl, rfl⟩ <;>
    rcases hm2 with ⟨rfl, rfl⟩ | ⟨rfl, rfl⟩ | ⟨rfl, rfl⟩ | ⟨rfl, rfl⟩ | ⟨rfl, rfl⟩
      | ⟨rfl, rfl⟩ | ⟨rfl, rfl⟩ <;>
    first
      | rfl
      | (exfalso; simp at hh)

/-! ## Lemmas on `JSON.stringify`: the text determines the value -/

theorem digitValue_digitChar (k : Nat) (hk : k < 10) : digitValue (Nat.digitChar k) = k := by
  interval_cases k <;> rfl

theorem isDigit_digitChar (k : Nat) (hk : k < 10) : (Nat.digitChar k).isDigit = true := by
  interval_cases k <;> rfl

theorem foldl_toDigitsCore (fuel : Nat) :
    ∀ (n : Nat) (ds : List Char), n < fuel →
      (Nat.toDigitsCore 10 fuel n ds).foldl (fun a c => a * 10 + digitValue c) 0
        = ds.foldl (fun a c => a * 10 + digitValue c) n := by
  induction fuel with
  | zero => intro n ds h; omega
  | succ fuel ih =>
    intro n ds h
    simp only [Nat.toDigitsCore]
    by_cases h0 : n / 10 = 0
    · simp only [h0, if_true, List.foldl_cons, Nat.zero_mul, Nat.zero_add]
      rw [digitValue_digitChar _ (Nat.mod_lt _ (by decide))]
      have : n % 10 = n := by omega
      rw [this]
    · simp only [h0, if_false]
      rw [ih (n / 10) _ (by omega)]
      simp only [List.foldl_cons]
      rw [digitValue_digitChar _ (Nat.mod_lt _ (by decide))]
      have : n / 10 * 10 + n % 10 = n := by omega
      rw [this]

theorem readDigits_toDigits (n : Nat) : readDigits (Nat.toDigits 10 n) = n := by
  simp only [readDigits, Nat.toDigits]
  rw [foldl_toDigitsCore (n + 1) n [] (by omega)]
  rfl

theorem toDigitsCore_chars (fuel : Nat) :
    ∀ (n : Nat) (ds : List Char), (∀ c ∈ ds, c.isDigit = true) → ds ≠ [] ∨ 0 < fuel →
      (∀ c ∈ Nat.toDigitsCore 10 fuel n ds, c.isDigit = true)
      ∧ Nat.toDigitsCore 10 fuel n ds ≠ [] := by
  induction fuel with
  | zero =>
    intro n ds h hne
    simp only [Nat.toDigitsCore]
    rcases hne with hne | hne
    · exact ⟨h, hne⟩
    · omega
  | succ fuel ih =>
    intro n ds h _
    simp only [Nat.toDigitsCore]
    have hd := isDigit_digitChar (n % 10) (Nat.mod_lt _ (by decide))
    have hall : ∀ c ∈ Nat.digitChar (n % 10) :: ds, c.isDigit = true := by
      intro c hc
      rcases List.mem_cons.mp hc with h1 | h1
      · rw [h1]; exact hd
      · exact h c h1
    by_cases h0 : n / 10 = 0
    · simp only [h0, if_true]
      exact ⟨hall, by simp⟩
    · simp only [h0, if_false]
      exact ih (n / 10) _ hall (Or.inl (by simp))

theorem toDigits_chars (n : Nat) :
    (∀ c ∈ Nat.toDigits 10 n, c.isDigit = true) ∧ Nat.toDigits 10 n ≠ [] :=
  toDigitsCore_chars (n + 1) n [] (by simp) (Or.inr (by omega))

theorem toString_nat_data (n : Nat) : (toString n).data = Nat.toDigits 10 n := rfl

theorem toString_int_ofNat (m : Nat) : (toString (Int.ofNat m)).data = Nat.toDigits 10 m := rfl

theorem toString_int_negSucc (m : Nat) :
    (toString (Int.negSucc m)).data = '-' :: Nat.toDigits 10 (m + 1) := rfl

theorem int_chars (n : Int) :
    (∀ c ∈ (toString n).data, isNumChar c = true) ∧ (toString n).data ≠ [] := by
  cases n with
  | ofNat m =>
    rw [toString_int_ofNat]
    refine ⟨fun c hc => ?_, (toDigits_chars m).2⟩
    simp [isNumChar, (toDigits_chars m).1 c hc]
  | negSucc m =>
    rw [toString_int_negSucc]
    refine ⟨fun c hc => ?_, by simp⟩
    rcases List.mem_cons.mp hc with h | h
    · rw [h]; rfl
    · simp [isNumChar, (toDigits_chars (m + 1)).1 c h]

theorem toDigits_injective {m n : Nat} (h : Nat.toDigits 10 m = Nat.toDigits 10 n) : m = n := by
  have := congrArg readDigits h
  rwa [readDigits_toDigits, readDigits_toDigits] at this

theorem toDigits_head_ne_minus (m : Nat) (l : List Char) : Nat.toDigits 10 m ≠ '-' :: l := by
  intro h
  have := (toDigits_chars m).1 '-' (by rw [h]; exact List.mem_cons_self _ _)
  revert this
  decide

theorem toString_int_injective {m n : Int} (h : (toString m).data = (toString n).data) :
    m = n := by
  cases m with
  | ofNat a =>
    cases n with
    | ofNat b =>
      rw [toString_int_ofNat, toString_int_ofNat] at h
      rw [toDigits_injective h]
    | negSucc b =>
      rw [toString_int_ofNat, toString_int_negSucc] at h
      exact absurd h (toDigits_head_ne_minus a _)
  | negSucc a =>
    cases n with
    | ofNat b =>
      rw [toString_int_ofNat, toString_int_negSucc] at h
      exact absurd h.symm (toDigits_head_ne_minus b _)
    | negSucc b =>
      rw [toString_int_negSucc, toString_int_negSucc] at h
      have := toDigits_injective (List.cons.inj h).2
      have hab : a = b := by omega
      rw [hab]

/-- Two texts made of characters of one class, each followed by a rest that does not
start with a character of that class, are equal when the whole texts are. -/
theorem append_eq_of_class (p : Char → Bool) :
    ∀ (xs ys r1 r2 : List Char), (∀ c ∈ xs, p c = true) → (∀ c ∈ ys, p c = true) →
      (∀ c ∈ r1.head?, p c = false) → (∀ c ∈ r2.head?, p c = false) →
      xs ++ r1 = ys ++ r2 → xs = ys ∧ r1 = r2
  | [], [], _, _, _, _, _, _, h => ⟨rfl, h⟩
  | [], y :: ys, r1, r2, _, hy, h1, _, h => by
    simp only [List.nil_append, List.cons_append] at h
    have hp := hy y (List.mem_cons_self _ _)
    have hn := h1 y (by rw [h]; rfl)
    rw [hp] at hn
    cases hn
  | x :: xs, [], r1, r2, hx, _, _, h2, h => by
    simp only [List.nil_append, List.cons_append] at h
    have hp := hx x (List.mem_cons_self _ _)
    have hn := h2 x (by rw [← h]; rfl)
    rw [hp] at hn
    cases hn
  | x :: xs, y :: ys, r1, r2, hx, hy, h1, h2, h => by
    simp only [List.cons_append, List.cons.injEq] at h
    obtain ⟨hxy, hrest⟩ := h
    obtain ⟨he, hr⟩ := append_eq_of_class p xs ys r1 r2
      (fun c hc => hx c (List.mem_cons_of_mem _ hc))
      (fun c hc => hy c (List.mem_cons_of_mem _ hc)) h1 h2 hrest
    exact ⟨by rw [hxy, he], hr⟩

theorem delimited_not_numChar {r : List Char} (h : Delimited r) :
    ∀ c ∈ r.head?, isNumChar c = false := by
  intro c hc
  rcases h c hc with h | h | h <;> (rw [h]; rfl)

theorem int_append_injective (m n : Int) (r1 r2 : List Char) (h1 : Delimited r1)
    (h2 : Delimited r2) (h : (toString m).data ++ r1 = (toString n).data ++ r2) :
    m = n ∧ r1 = r2 := by
  obtain ⟨he, hr⟩ := append_eq_of_class isNumChar _ _ r1 r2 (int_chars m).1 (int_chars n).1
    (delimited_not_numChar h1) (delimited_not_numChar h2) h
  exact ⟨toString_int_injective he, hr⟩

theorem unquoteChar_control (n : Nat) (hn : n < 32) (x : List Char) :
    unquoteChar ((quoteChar (Char.ofNat n)).data ++ x) = some (Char.ofNat n, x) := by
  interval_cases n <;> rfl

theorem unquoteChar_quoteChar (c : Char) (x : List Char) :
    unquoteChar ((quoteChar c).data ++ x) = some (c, x) := by
  by_cases hlt : c.toNat < 32
  · have := unquoteChar_control c.toNat hlt x
    rwa [Char.ofNat_toNat] at this
  · by_cases h1 : c = '"'
    · subst h1; rfl
    · by_cases h2 : c = '\\'
      · subst h2; rfl
      · have h3 : c ≠ '\x08' := by intro h; subst h; exact hlt (by decide)
        have h4 : c ≠ '\x0c' := by intro h; subst h; exact hlt (by decide)
        have h5 : c ≠ '\n' := by intro h; subst h; exact hlt (by decide)
        have h6 : c ≠ '\r' := by intro h; subst h; exact hlt (by decide)
        have h7 : c ≠ '\t' := by intro h; subst h; exact hlt (by decide)
        have hq : quoteChar c = String.singleton c := by
          simp [quoteChar, h1, h2, h3, h4, h5, h6, h7, hlt]
        rw [hq]
        show unquoteChar (c :: x) = some (c, x)
        simp [unquoteChar, h2]

theorem quoteChar_head (c : Char) :
    ∃ h t, (quoteChar c).data = h :: t ∧ h ≠ '"' := by
  unfold quoteChar
  split_ifs with h1 h2 h3 h4 h5 h6 h7 h8
  · exact ⟨'\\', _, rfl, by decide⟩
  · exact ⟨'\\', _, rfl, by decide⟩
  · exact ⟨'\\', _, rfl, by decide⟩
  · exact ⟨'\\', _, rfl, by decide⟩
  · exact ⟨'\\', _, rfl, by decide⟩
  · exact ⟨'\\', _, rfl, by decide⟩
  · exact ⟨'\\', _, rfl, by decide⟩
  · exact ⟨'\\', _, rfl, by decide⟩
  · exact ⟨c, [], rfl, h1⟩

theorem quoteJSONString_data (s : String) :
    (quoteJSONString s).data = '"' :: (quotedBody s.data ++ ['"']) := by
  simp [quoteJSONString, quotedBody, String.data_append, String.data_join, List.map_map,
    Function.comp_def]

theorem quotedBody_injective :
    ∀ (l1 l2 r1 r2 : List Char),
      quotedBody l1 ++ '"' :: r1 = quotedBody l2 ++ '"' :: r2 → l1 = l2 ∧ r1 = r2
  | [], [], _, _, h => by
    simp only [quotedBody, List.map_nil, List.flatten_nil, List.nil_append,
      List.cons.injEq, true_and] at h
    exact ⟨rfl, h⟩
  | [], c :: l, r1, r2, h => by
    exfalso
    obtain ⟨hd, tl, hq, hne⟩ := quoteChar_head c
    simp only [quotedBody, List.map_nil, List.flatten_nil, List.nil_append, List.map_cons,
      List.flatten_cons, hq, List.cons_append, List.cons.injEq] at h
    exact hne h.1.symm
  | c :: l, [], r1, r2, h => by
    exfalso
    obtain ⟨hd, tl, hq, hne⟩ := quoteChar_head c
    simp only [quotedBody, List.map_nil, List.flatten_nil, List.nil_append, List.map_cons,
      List.flatten_cons, hq, List.cons_append, List.cons.injEq] at h
    exact hne h.1
  | c1 :: l1, c2 :: l2, r1, r2, h => by
    have h2 : (quoteChar c1).data ++ (quotedBody l1 ++ '"' :: r1)
        = (quoteChar c2).data ++ (quotedBody l2 ++ '"' :: r2) := by
      simpa [quotedBody, List.append_assoc] using h
    have h3 := congrArg unquoteChar h2
    rw [unquoteChar_quoteChar, unquoteChar_quoteChar] at h3
    simp only [Option.some.injEq, Prod.mk.injEq] at h3
    obtain ⟨hl, hr⟩ := quotedBody_injective l1 l2 r1 r2 h3.2
    exact ⟨by rw [h3.1, hl], hr⟩

theorem quoteJSONString_append_injective (s1 s2 : String) (r1 r2 : List Char)
    (h : (quoteJSONString s1).data ++ r1 = (quoteJSONString s2).data ++ r2) :
    s1 = s2 ∧ r1 = r2 := by
  rw [quoteJSONString_data, quoteJSONString_data] at h
  simp only [List.cons_append, List.append_assoc, List.cons.injEq, true_and,
    List.nil_append] at h
  obtain ⟨hl, hr⟩ := quotedBody_injective _ _ _ _ h
  exact ⟨String.ext hl, hr⟩

theorem intercalate_go_data (t : List String) :
    ∀ acc : String, (String.intercalate.go acc "," t).data = acc.data ++ commaTail t := by
  induction t with
  | nil => intro acc; simp [String.intercalate.go, commaTail]
  | cons a t ih =>
    intro acc
    simp only [String.intercalate.go]
    rw [ih]
    simp [commaTail, String.data_append, List.append_assoc]

theorem intercalate_nil_data : (",".intercalate []).data = [] := rfl

theorem intercalate_cons_data (a : String) (t : List String) :
    (",".intercalate (a :: t)).data = a.data ++ commaTail t := by
  simp only [String.intercalate]
  exact intercalate_go_data t a

theorem commaTail_cons (a : String) (t : List String) :
    commaTail (a :: t) = ',' :: (a.data ++ commaTail t) := by
  simp [commaTail]

theorem jsonStringify_of_jsonData (v : JsValue) (h : v.isJsonData = true) :
    jsonStringify v = some ⟨valueText v⟩ := by
  cases v with
  | undefined => simp [JsValue.isJsonData] at h
  | function id => simp [JsValue.isJsonData] at h
  | symbol id => simp [JsValue.isJsonData] at h
  | bool b => cases b <;> rfl
  | num x => cases x <;> first | rfl | simp [JsValue.isJsonData] at h
  | _ => rfl

theorem valueText_arr (xs : List JsValue) :
    valueText (.arr xs) = '[' :: ((",".intercalate (stringifyElems xs)).data ++ [']']) := by
  simp [valueText, jsonStringify, String.data_append]

theorem valueText_obj (ps : List (String × JsValue)) :
    valueText (.obj ps)
      = '\x7b' :: ((",".intercalate (stringifyProps ps)).data ++ ['\x7d']) := by
  simp [valueText, jsonStringify, String.data_append]

theorem stringifyElems_cons (x : JsValue) (xs : List JsValue) (h : x.isJsonData = true) :
    stringifyElems (x :: xs) = ⟨valueText x⟩ :: stringifyElems xs := by
  simp [stringifyElems, jsonStringify_of_jsonData x h]

theorem stringifyProps_cons (k : String) (v : JsValue) (ps : List (String × JsValue))
    (h : v.isJsonData = true) :
    stringifyProps ((k, v) :: ps)
      = (quoteJSONString k ++ ":" ++ ⟨valueText v⟩) :: stringifyProps ps := by
  simp [stringifyProps, jsonStringify_of_jsonData v h]

theorem entry_data (k : String) (v : JsValue) :
    (quoteJSONString k ++ ":" ++ (⟨valueText v⟩ : String)).data
      = (quoteJSONString k).data ++ ':' :: valueText v := by
  simp [String.data_append]

theorem tag_pos_of_jsonData (v : JsValue) (h : v.isJsonData = true) : v.tag ≠ 0 := by
  cases v with
  | undefined => simp [JsValue.isJsonData] at h
  | function id => simp [JsValue.isJsonData] at h
  | symbol id => simp [JsValue.isJsonData] at h
  | bool b => cases b <;> simp [JsValue.tag]
  | _ => simp [JsValue.tag]

theorem valueText_head (v : JsValue) (h : v.isJsonData = true) :
    ∃ c t, valueText v = c :: t ∧ charTag c = v.tag := by
  cases v with
  | undefined => simp [JsValue.isJsonData] at h
  | null => exact ⟨'n', _, rfl, rfl⟩
  | bool b =>
    cases b
    · exact ⟨'f', _, rfl, rfl⟩
    · exact ⟨'t', _, rfl, rfl⟩
  | function id => simp [JsValue.isJsonData] at h
  | symbol id => simp [JsValue.isJsonData] at h
  | num x =>
    cases x with
    | int n hs =>
      have hc := int_chars n
      have ht : valueText (.num (.int n hs)) = (toString n).data := rfl
      rw [ht]
      cases hd : (toString n).data with
      | nil => exact absurd hd hc.2
      | cons c t =>
        refine ⟨c, t, rfl, ?_⟩
        have := hc.1 c (by rw [hd]; exact List.mem_cons_self _ _)
        simp [charTag, this, JsValue.tag]
    | nan => simp [JsValue.isJsonData] at h
    | infinity => simp [JsValue.isJsonData] at h
    | negInfinity => simp [JsValue.isJsonData] at h
  | str s =>
    have ht : valueText (.str s) = (quoteJSONString s).data := rfl
    rw [ht, quoteJSONString_data]
    exact ⟨'"', _, rfl, rfl⟩
  | arr xs =>
    rw [valueText_arr]
    exact ⟨'[', _, rfl, rfl⟩
  | obj ps =>
    rw [valueText_obj]
    exact ⟨'\x7b', _, rfl, rfl⟩

theorem tag_eq_of_text_eq (a b : JsValue) (r1 r2 : List Char) (ha : a.isJsonData = true)
    (hb : b.isJsonData = true) (h : valueText a ++ r1 = valueText b ++ r2) : a.tag = b.tag := by
  obtain ⟨c1, t1, e1, g1⟩ := valueText_head a ha
  obtain ⟨c2, t2, e2, g2⟩ := valueText_head b hb
  rw [e1, e2] at h
  simp only [List.cons_append, List.cons.injEq] at h
  rw [← g1, ← g2, h.1]

theorem text_ne_closing (v : JsValue) (hv : v.isJsonData = true) (c : Char) (hc : charTag c = 0)
    (x y : List Char) : c :: x ≠ valueText v ++ y := by
  intro h
  obtain ⟨c1, t1, e1, g1⟩ := valueText_head v hv
  rw [e1] at h
  simp only [List.cons_append, List.cons.injEq] at h
  rw [← h.1, hc] at g1
  exact tag_pos_of_jsonData v hv g1.symm

theorem delimited_commaTail (l : List String) (c : Char) (hc : c = ']' ∨ c = '\x7d')
    (r : List Char) : Delimited (commaTail l ++ c :: r) := by
  intro d hd
  cases l with
  | nil =>
    simp only [commaTail, List.map_nil, List.flatten_nil, List.nil_append, List.head?_cons,
      Option.mem_def, Option.some.injEq] at hd
    rcases hc with h | h
    · right; left; rw [← hd, h]
    · right; right; rw [← hd, h]
  | cons a t =>
    rw [commaTail_cons] at hd
    simp only [List.cons_append, List.head?_cons, Option.mem_def, Option.some.injEq] at hd
    left
    exact hd.symm

mutual
theorem value_inj : ∀ (a b : JsValue) (r1 r2 : List Char), a.isJsonData = true →
    b.isJsonData = true → Delimited r1 → Delimited r2 →
    valueText a ++ r1 = valueText b ++ r2 → a = b ∧ r1 = r2
  | .undefined, _, _, _, ha, _, _, _, _ => by simp [JsValue.isJsonData] at ha
  | .function _, _, _, _, ha, _, _, _, _ => by simp [JsValue.isJsonData] at ha
  | .symbol _, _, _, _, ha, _, _, _, _ => by simp [JsValue.isJsonData] at ha
  | .num .nan, _, _, _, ha, _, _, _, _ => by simp [JsValue.isJsonData] at ha
  | .num .infinity, _, _, _, ha, _, _, _, _ => by simp [JsValue.isJsonData] at ha
  | .num .negInfinity, _, _, _, ha, _, _, _, _ => by simp [JsValue.isJsonData] at ha
  | .null, b, r1, r2, ha, hb, _, _, h => by
    have htag := tag_eq_of_text_eq _ _ r1 r2 ha hb h
    cases b with
    | null => exact ⟨rfl, List.append_cancel_left h⟩
    | bool c => cases c <;> simp [JsValue.tag] at htag
    | _ => simp [JsValue.tag] at htag
  | .bool c, b, r1, r2, ha, hb, _, _, h => by
    have htag := tag_eq_of_text_eq _ _ r1 r2 ha hb h
    cases b with
    | bool d =>
      cases c <;> cases d <;> simp [JsValue.tag] at htag
      · exact ⟨rfl, List.append_cancel_left h⟩
      · exact ⟨rfl, List.append_cancel_left h⟩
    | _ => cases c <;> simp [JsValue.tag] at htag
  | .num (.int m hm), b, r1, r2, ha, hb, h1, h2, h => by
    have htag := tag_eq_of_text_eq _ _ r1 r2 ha hb h
    cases b with
    | num y =>
      cases y with
      | int n hn =>
        obtain ⟨he, hr⟩ := int_append_injective m n r1 r2 h1 h2 h
        subst he
        exact ⟨rfl, hr⟩
      | nan => simp [JsValue.isJsonData] at hb
      | infinity => simp [JsValue.isJsonData] at hb
      | negInfinity => simp [JsValue.isJsonData] at hb
    | bool c => cases c <;> simp [JsValue.tag] at htag
    | _ => simp [JsValue.tag] at htag
  | .str s, b, r1, r2, ha, hb, _, _, h => by
    have htag := tag_eq_of_text_eq _ _ r1 r2 ha hb h
    cases b with
    | str t =>
      obtain ⟨he, hr⟩ := quoteJSONString_append_injective s t r1 r2 h
      exact ⟨by rw [he], hr⟩
    | bool c => cases c <;> simp [JsValue.tag] at htag
    | _ => simp [JsValue.tag] at htag
  | .arr xs, b, r1, r2, ha, hb, _, _, h => by
    have htag := tag_eq_of_text_eq _ _ r1 r2 ha hb h
    cases b with
    | arr ys =>
      rw [valueText_arr, valueText_arr] at h
      simp only [List.cons_append, List.append_assoc, List.cons.injEq, true_and,
        List.nil_append] at h
      simp only [JsValue.isJsonData] at ha hb
      match xs, ys, ha, hb, h with
      | [], [], _, _, h =>
        simp only [stringifyElems, intercalate_nil_data, List.nil_append, List.cons.injEq,
          true_and] at h
        exact ⟨rfl, h⟩
      | [], y :: ys, _, hb, h =>
        exfalso
        simp only [allJsonData, Bool.and_eq_true] at hb
        rw [stringifyElems_cons y ys hb.1, intercalate_cons_data] at h
        simp only [stringifyElems, intercalate_nil_data, List.nil_append,
          List.append_assoc] at h
        exact text_ne_closing y hb.1 ']' rfl _ _ h
      | x :: xs, [], ha, _, h =>
        exfalso
        simp only [allJsonData, Bool.and_eq_true] at ha
        rw [stringifyElems_cons x xs ha.1, intercalate_cons_data] at h
        simp only [stringifyElems, intercalate_nil_data, List.nil_append,
          List.append_assoc] at h
        exact text_ne_closing x ha.1 ']' rfl _ _ h.symm
      | x :: xs, y :: ys, ha, hb, h =>
        simp only [allJsonData, Bool.and_eq_true] at ha hb
        rw [stringifyElems_cons x xs ha.1, stringifyElems_cons y ys hb.1,
          intercalate_cons_data, intercalate_cons_data] at h
        simp only [List.append_assoc] at h
        obtain ⟨hxy, hrest⟩ := value_inj x y _ _ ha.1 hb.1
          (delimited_commaTail _ ']' (Or.inl rfl) r1)
          (delimited_commaTail _ ']' (Or.inl rfl) r2) h
        obtain ⟨hl, hr⟩ := elems_inj xs ys r1 r2 ha.2 hb.2 hrest
        exact ⟨by rw [hxy, hl], hr⟩
    | bool c => cases c <;> simp [JsValue.tag] at htag
    | _ => simp [JsValue.tag] at htag
  | .obj ps, b, r1, r2, ha, hb, _, _, h => by
    have htag := tag_eq_of_text_eq _ _ r1 r2 ha hb h
    cases b with
    | obj qs =>
      rw [valueText_obj, valueText_obj] at h
      simp only [List.cons_append, List.append_assoc, List.cons.injEq, true_and,
        List.nil_append] at h
      simp only [JsValue.isJsonData] at ha hb
      match ps, qs, ha, hb, h with
      | [], [], _, _, h =>
        simp only [stringifyProps, intercalate_nil_data, List.nil_append, List.cons.injEq,
          true_and] at h
        exact ⟨rfl, h⟩
      | [], (k, v) :: qs, _, hb, h =>
        exfalso
        simp only [propsJsonData, Bool.and_eq_true] at hb
        rw [stringifyProps_cons k v qs hb.1, intercalate_cons_data, entry_data,
          quoteJSONString_data] at h
        simp [stringifyProps, intercalate_nil_data] at h
      | (k, v) :: ps, [], ha, _, h =>
        exfalso
        simp only [propsJsonData, Bool.and_eq_true] at ha
        rw [stringifyProps_cons k v ps ha.1, intercalate_cons_data, entry_data,
          quoteJSONString_data] at h
        simp [stringifyProps, intercalate_nil_data] at h
      | (k1, v1) :: ps, (k2, v2) :: qs, ha, hb, h =>
        simp only [propsJsonData, Bool.and_eq_true] at ha hb
        rw [stringifyProps_cons k1 v1 ps ha.1, stringifyProps_cons k2 v2 qs hb.1,
          intercalate_cons_data, intercalate_cons_data, entry_data, entry_data] at h
        simp only [List.append_assoc, List.cons_append] at h
        obtain ⟨hk, hrest⟩ := quoteJSONString_append_injective k1 k2 _ _ h
        simp only [List.cons.injEq, true_and] at hrest
        obtain ⟨hv, hrest2⟩ := value_inj v1 v2 _ _ ha.1 hb.1
          (delimited_commaTail _ '\x7d' (Or.inr rfl) r1)
          (delimited_commaTail _ '\x7d' (Or.inr rfl) r2) hrest
        obtain ⟨hl, hr⟩ := props_inj ps qs r1 r2 ha.2 hb.2 hrest2
        exact ⟨by rw [hk, hv, hl], hr⟩
    | bool c => cases c <;> simp [JsValue.tag] at htag
    | _ => simp [JsValue.tag] at htag
theorem elems_inj : ∀ (xs ys : List JsValue) (r1 r2 : List Char), allJsonData xs = true →
    allJsonData ys = true →
    commaTail (stringifyElems xs) ++ ']' :: r1 = commaTail (stringifyElems ys) ++ ']' :: r2 →
    xs = ys ∧ r1 = r2
  | [], [], _, _, _, _, h => by
    simp only [stringifyElems, commaTail, List.map_nil, List.flatten_nil, List.nil_append,
      List.cons.injEq, true_and] at h
    exact ⟨rfl, h⟩
  | [], y :: ys, _, _, _, hb, h => by
    exfalso
    simp only [allJsonData, Bool.and_eq_true] at hb
    rw [stringifyElems_cons y ys hb.1, commaTail_cons] at h
    simp [stringifyElems, commaTail] at h
  | x :: xs, [], _, _, ha, _, h => by
    exfalso
    simp only [allJsonData, Bool.and_eq_true] at ha
    rw [stringifyElems_cons x xs ha.1, commaTail_cons] at h
    simp [stringifyElems, commaTail] at h
  | x :: xs, y :: ys, r1, r2, ha, hb, h => by
    simp only [allJsonData, Bool.and_eq_true] at ha hb
    rw [stringifyElems_cons x xs ha.1, stringifyElems_cons y ys hb.1, commaTail_cons,
      commaTail_cons] at h
    simp only [List.cons_append, List.append_assoc, List.cons.injEq, true_and] at h
    obtain ⟨hxy, hrest⟩ := value_inj x y _ _ ha.1 hb.1
      (delimited_commaTail _ ']' (Or.inl rfl) r1)
      (delimited_commaTail _ ']' (Or.inl rfl) r2) h
    obtain ⟨hl, hr⟩ := elems_inj xs ys r1 r2 ha.2 hb.2 hrest
    exact ⟨by rw [hxy, hl], hr⟩
theorem props_inj : ∀ (ps qs : List (String × JsValue)) (r1 r2 : List Char),
    propsJsonData ps = true → propsJsonData qs = true →
    commaTail (stringifyProps ps) ++ '\x7d' :: r1
      = commaTail (stringifyProps qs) ++ '\x7d' :: r2 →
    ps = qs ∧ r1 = r2
  | [], [], _, _, _, _, h => by
    simp only [stringifyProps, commaTail, List.map_nil, List.flatten_nil, List.nil_append,
      List.cons.injEq, true_and] at h
    exact ⟨rfl, h⟩
  | [], (k, v) :: qs, _, _, _, hb, h => by
    exfalso
    simp only [propsJsonData, Bool.and_eq_true] at hb
    rw [stringifyProps_cons k v qs hb.1, commaTail_cons] at h
    simp [stringifyProps, commaTail] at h
  | (k, v) :: ps, [], _, _, ha, _, h => by
    exfalso
    simp only [propsJsonData, Bool.and_eq_true] at ha
    rw [stringifyProps_cons k v ps ha.1, commaTail_cons] at h
    simp [stringifyProps, commaTail] at h
  | (k1, v1) :: ps, (k2, v2) :: qs, r1, r2, ha, hb, h => by
    simp only [propsJsonData, Bool.and_eq_true] at ha hb
    rw [stringifyProps_cons k1 v1 ps ha.1, stringifyProps_cons k2 v2 qs hb.1, commaTail_cons,
      commaTail_cons, entry_data, entry_data] at h
    simp only [List.cons_append, List.append_assoc, List.cons.injEq, true_and] at h
    obtain ⟨hk, hrest⟩ := quoteJSONString_append_injective k1 k2 _ _ h
    simp only [List.cons.injEq, true_and] at hrest
    obtain ⟨hv, hrest2⟩ := value_inj v1 v2 _ _ ha.1 hb.1
      (delimited_commaTail _ '\x7d' (Or.inr rfl) r1)
      (delimited_commaTail _ '\x7d' (Or.inr rfl) r2) hrest
    obtain ⟨hl, hr⟩ := props_inj ps qs r1 r2 ha.2 hb.2 hrest2
    exact ⟨by rw [hk, hv, hl], hr⟩
end

theorem paramString_nil_data : (paramString []).data = [] := rfl

theorem paramString_cons_data (p : String × JsValue) (ps : JsObject) :
    (paramString (p :: ps)).data = ':' :: valueText (.obj (p :: ps)) := by
  simp [paramString, valueText, jsonStringify, templ, String.data_append]

theorem paramString_head (params : JsObject) :
    ∀ c ∈ (paramString params).data.head?, (c != ':') = false := by
  intro c hc
  cases params with
  | nil => simp [paramString_nil_data] at hc
  | cons p ps =>
    rw [paramString_cons_data] at hc
    simp only [List.head?_cons, Option.mem_def, Option.some.injEq] at hc
    simp [← hc]

theorem paramString_injective (params1 params2 : JsObject)
    (h1 : propsJsonData params1 = true) (h2 : propsJsonData params2 = true)
    (h : (paramString params1).data = (paramString params2).data) : params1 = params2 := by
  cases params1 with
  | nil =>
    cases params2 with
    | nil => rfl
    | cons q qs =>
      rw [paramString_nil_data, paramString_cons_data] at h
      simp at h
  | cons p ps =>
    cases params2 with
    | nil =>
      rw [paramString_nil_data, paramString_cons_data] at h
      simp at h
    | cons q qs =>
      rw [paramString_cons_data, paramString_cons_data] at h
      have h3 : valueText (.obj (p :: ps)) ++ [] = valueText (.obj (q :: qs)) ++ [] := by
        simpa using h
      have hd : Delimited [] := by
        intro c hc
        simp at hc
      have := (value_inj (.obj (p :: ps)) (.obj (q :: qs)) [] []
        (by simpa [JsValue.isJsonData] using h1) (by simpa [JsValue.isJsonData] using h2) hd hd h3).1
      exact JsValue.obj.inj this

theorem identifier_split (id1 id2 : String) (params1 params2 : JsObject)
    (h1 : ':' ∉ id1.data) (h2 : ':' ∉ id2.data)
    (h : id1.data ++ (paramString params1).data = id2.data ++ (paramString params2).data) :
    id1 = id2 ∧ (paramString params1).data = (paramString params2).data := by
  have hc : ∀ (l : List Char), ':' ∉ l → ∀ c ∈ l, (c != ':') = true := by
    intro l hl c hcl
    simp only [bne_iff_ne, ne_eq]
    intro e
    exact hl (e ▸ hcl)
  obtain ⟨he, hr⟩ := append_eq_of_class (fun c => c != ':') _ _ _ _ (hc _ h1) (hc _ h2)
    (paramString_head params1) (paramString_head params2) h
  exact ⟨String.ext he, hr⟩

/-! ## C1: key determinism -/

/-- C1, as stated, fails: the objects `{a: 1, b: 2}` and `{b: 2, a: 1}` hold the same
key/value pairs, and for the registered type `users` and the identifier `1`
`generateKey` builds two different keys from them. -/
theorem generateKey_insertion_order_counterexample :
    "users" ∈ registeredTags
    ∧ List.Perm ([("a", .num 1), ("b", .num 2)] : JsObject) [("b", .num 2), ("a", .num 1)]
    ∧ generateKey "users" "1" [("a", .num 1), ("b", .num 2)]
        = .returned "user:1:\x7b\"a\":1,\"b\":2\x7d"
    ∧ generateKey "users" "1" [("b", .num 2), ("a", .num 1)]
        = .returned "user:1:\x7b\"b\":2,\"a\":1\x7d"
    ∧ generateKey "users" "1" [("a", .num 1), ("b", .num 2)]
        ≠ generateKey "users" "1" [("b", .num 2), ("a", .num 1)] :=
  ⟨by decide, List.Perm.swap _ _ _, by decide, by decide, by decide⟩

/-- C1, amended: for every registered type, every identifier and every two params
objects that hold the same key/value pairs (keys distinct) and enumerate their
keys in the same order, `generateKey` returns one and the same key. -/
theorem generateKey_deterministic (type identifier : String) (params1 params2 : JsObject)
    (hreg : type ∈ registeredTags)
    (hsame : params1.Perm params2)
    (horder : params1.map Prod.fst = params2.map Prod.fst)
    (hkeys : (params1.map Prod.fst).Nodup) :
    ∃ key, generateKey type identifier params1 = .returned key
      ∧ generateKey type identifier params2 = .returned key := by
  rw [← eq_of_perm_of_keys_eq params1 params2 hsame horder hkeys]
  obtain ⟨st, hst⟩ := lookup_isSome_of_registered hreg
  exact ⟨_, generateKey_of_own (cacheStrategiesGet_of_lookup hst) identifier params1, 
    generateKey_of_own (cacheStrategiesGet_of_lookup hst) identifier params1⟩

/-- Witness of `generateKey_deterministic` at `{a: 1, b: 2}`, type `users`. -/
theorem generateKey_deterministic_witness :
    "users" ∈ registeredTags
    ∧ ∃ key, generateKey "users" "1" [("a", .num 1), ("b", .num 2)] = .returned key
      ∧ generateKey "users" "1" [("a", .num 1), ("b", .num 2)] = .returned key :=
  ⟨by decide, generateKey_deterministic "users" "1" [("a", .num 1), ("b", .num 2)]
    [("a", .num 1), ("b", .num 2)] (by decide) (List.Perm.refl _) rfl (by decide)⟩

/-! ## C2: fallback to the in-memory backend -/

/-- C2, at the failing input: a fresh service started with `NODE_ENV=production` whose
Redis client is created and whose `ping()` rejects. `init` returns normally and
sets `isInitialized`, but `this.redis` keeps the client, so a following `set`
goes to the Redis client (the in-memory table stays empty), it returns `false`
when the command is rejected, and a following `get` asks the Redis client too. -/
theorem init_ping_rejects_keeps_redis (message : String) (env : Env) (value : JsValue) :
    (init Service.new (some "production") (.pingRejects message)).1 = .returned ()
    ∧ (init Service.new (some "production") (.pingRejects message)).2.isInitialized = true
    ∧ (init Service.new (some "production") (.pingRejects message)).2.redis = some ⟨[.ping]⟩
    ∧ (set (init Service.new (some "production") (.pingRejects message)).2 env
          "users" "1" value [] none).2.memoryCache.data = []
    ∧ (set (init Service.new (some "production") (.pingRejects message)).2 env
          "users" "1" value [] none).2.redis
        = some ⟨[.ping, .setex "user:1" (some 600) (jsonStringify value)]⟩
    ∧ (set (init Service.new (some "production") (.pingRejects message)).2 (Env.offline 0)
          "users" "1" value [] none).1 = .returned false
    ∧ (get (init Service.new (some "production") (.pingRejects message)).2 env
          "users" "1" []).2.redis = some ⟨[.ping, .get "user:1"]⟩ := by
  have hkey : generateKey "users" "1" [] = .returned "user:1" := by decide
  have hst : cacheStrategiesGet "users" = .own ⟨600, "user:"⟩ := by decide
  refine ⟨rfl, rfl, rfl, ?_, ?_, ?_, ?_⟩
  · simp only [init, initRedis, Service.new, set, hkey, Service.sendRedis]
    cases env.redisWrite <;> rfl
  · simp only [init, initRedis, Service.new, set, hkey, hst, Service.sendRedis]
    cases env.redisWrite <;> rfl
  · simp [init, initRedis, Service.new, set, hkey, Service.sendRedis, Env.offline]
  · simp only [init, initRedis, Service.new, get, hkey, Service.sendRedis]
    cases env.redisGet with
    | threw e => rfl
    | returned v =>
      by_cases hv : replyTruthy v = true
      · simp only [hv, if_true]
        cases env.jsonParse (v.getD "") <;> rfl
      · simp only [hv]
        rfl

/-! ## C4: unknown data types -/

/-- C4, at the failing input: `constructor` is not a key registered in
`cacheStrategies`, yet `generateKey` does not throw for it: the member inherited
from `Object.prototype` passes the guard and the key starts with `undefined`. -/
theorem generateKey_inherited_member_returns (identifier : String) (params : JsObject) :
    "constructor" ∉ registeredTags
    ∧ generateKey "constructor" identifier params
        = .returned ("undefined" ++ identifier ++ paramString params)
    ∧ generateKey "constructor" "1" [] = .returned "undefined1" := by
  have h : cacheStrategiesGet "constructor" = .inherited := by decide
  refine ⟨by decide, ?_, by decide⟩
  simp [generateKey, h, Member.truthy, Member.keyPrefix, templ]

/-! ## C5: operations on an unknown data type -/

/-- C5, as stated, fails: `nonexistent` is absent from the policy table, and `get`, `set`
and `delete` called with it return `null`, `false` and `false` instead of failing. -/
theorem unknown_type_swallowed_counterexample :
    "nonexistent" ∉ registeredTags
    ∧ (get Service.new (Env.offline 0) "nonexistent" "1" []).1 = .returned .null
    ∧ (set Service.new (Env.offline 0) "nonexistent" "1" (.num 7) [] none).1 = .returned false
    ∧ (delete Service.new (Env.offline 0) "nonexistent" "1" []).1 = .returned false
    ∧ (∀ e, (get Service.new (Env.offline 0) "nonexistent" "1" []).1 ≠ .threw e)
    ∧ (∀ e, (set Service.new (Env.offline 0) "nonexistent" "1" (.num 7) [] none).1 ≠ .threw e)
    ∧ (∀ e, (delete Service.new (Env.offline 0) "nonexistent" "1" []).1 ≠ .threw e) := by
  have hkey : generateKey "nonexistent" "1" []
      = .threw ("Type de cache '" ++ "nonexistent" ++ "' non supporté") :=
    generateKey_of_undefined (by decide) "1" []
  refine ⟨by decide, ?_, ?_, ?_, ?_, ?_, ?_⟩ <;> simp [get, set, delete, hkey]

/-- C5, amended: for every tag for which the lookup in the policy table gives
`undefined` (it is neither registered nor the name of a member of
`Object.prototype`), `get` returns `null`, `set` and `delete` return `false`, none of
them throws, and the service state is left as it was. -/
theorem unknown_type_returns_sentinel (s : Service) (env : Env) (type identifier : String)
    (value : JsValue) (params : JsObject) (customTTL : Option JsNumber)
    (hreg : type ∉ registeredTags) (hproto : type ∉ objectPrototypeKeys) :
    get s env type identifier params = (.returned .null, s)
    ∧ set s env type identifier value params customTTL = (.returned false, s)
    ∧ delete s env type identifier params = (.returned false, s) := by
  have hkey := generateKey_of_undefined (cacheStrategiesGet_of_unknown hreg hproto)
    identifier params
  simp [get, set, delete, hkey]

/-- Witness of `unknown_type_returns_sentinel` at the tag `nonexistent`. -/
theorem unknown_type_returns_sentinel_witness :
    "nonexistent" ∉ registeredTags ∧ "nonexistent" ∉ objectPrototypeKeys
    ∧ get Service.new (Env.offline 0) "nonexistent" "1" [] = (.returned .null, Service.new)
    ∧ set Service.new (Env.offline 0) "nonexistent" "1" (.num 7) [] none
        = (.returned false, Service.new)
    ∧ delete Service.new (Env.offline 0) "nonexistent" "1" []
        = (.returned false, Service.new) :=
  ⟨by decide, by decide,
    unknown_type_returns_sentinel Service.new (Env.offline 0) "nonexistent" "1" (.num 7) []
      none (by decide) (by decide)⟩

/-! ## C3: round trip on the in-memory backend -/

/-- C3, as stated, fails at the value `undefined`: on a fresh service (in-memory
backend) `set("users", "1", undefined)` returns `true`, and the `get` that follows at
once returns `null`, which is not `undefined`. -/
theorem set_get_undefined_counterexample :
    Service.new.redis = none
    ∧ "users" ∈ registeredTags
    ∧ (set Service.new (Env.offline 0) "users" "1" .undefined [] none).1 = .returned true
    ∧ (get (set Service.new (Env.offline 0) "users" "1" .undefined [] none).2
          (Env.offline 0) "users" "1" []).1 = .returned .null
    ∧ (get (set Service.new (Env.offline 0) "users" "1" .undefined [] none).2
          (Env.offline 0) "users" "1" []).1 ≠ .returned .undefined := by
  have hst : cacheStrategiesGet "users" = .own ⟨600, "user:"⟩ := by decide
  have hget : (get (set Service.new (Env.offline 0) "users" "1" .undefined [] none).2
      (Env.offline 0) "users" "1" []).1 = .returned .null := by
    rw [set_local_of_own rfl hst, get_local_of_own rfl hst]
    rfl
  refine ⟨rfl, by decide, ?_, hget, ?_⟩
  · rw [set_local_of_own rfl hst]
  · rw [hget]
    intro h
    cases h

/-- C3, amended: on the in-memory backend, for every registered type, identifier,
params and every value `v` other than `undefined`, `set(type, id, v, params)` returns
`true`, and a `get(type, id, params)` that follows within 120 seconds (the shortest
policy ttl) returns `v`. -/
theorem set_get_roundtrip (s : Service) (envSet envGet : Env) (type identifier : String)
    (v : JsValue) (params : JsObject)
    (hlocal : s.redis = none) (hreg : type ∈ registeredTags)
    (hv : v.isUndefined = false) (hsoon : envGet.now ≤ envSet.now + 120 * 1000) :
    (set s envSet type identifier v params none).1 = .returned true
    ∧ (get (set s envSet type identifier v params none).2 envGet type identifier params).1
        = .returned v := by
  obtain ⟨st, hlook⟩ := lookup_isSome_of_registered hreg
  exact set_get_local_roundtrip s envSet envGet hlocal hlook identifier v params hv hsoon

/-- Witness of `set_get_roundtrip`: the value `7` under `users`, identifier `1`. -/
theorem set_get_roundtrip_witness :
    (set Service.new (Env.offline 0) "users" "1" (.num 7) [] none).1 = .returned true
    ∧ (get (set Service.new (Env.offline 0) "users" "1" (.num 7) [] none).2
          (Env.offline 5) "users" "1" []).1 = .returned (.num 7) :=
  set_get_roundtrip Service.new (Env.offline 0) (Env.offline 5) "users" "1" (.num 7) []
    rfl (by decide) rfl (by decide)

/-! ## C6: counter accuracy -/

/-- C6: on the in-memory backend, for every starting state and every sequence of N
`get` calls on registered types of which H find a live entry and M = N - H do
not, the counters end at `hits = hits_prior + H` and `misses = misses_prior + M`,
`sets` and `deletes` are unchanged, and `getStats().totalRequests = hits + misses`. -/
theorem gets_counter_accuracy (s : Service) (calls : List GetCall)
    (hlocal : s.redis = none) (hreg : ∀ c ∈ calls, c.type ∈ registeredTags) :
    countFinding NodeCache.hasLive s calls ≤ calls.length
    ∧ (runGets s calls).cacheStats.hits
        = s.cacheStats.hits + countFinding NodeCache.hasLive s calls
    ∧ (runGets s calls).cacheStats.misses
        = s.cacheStats.misses + (calls.length - countFinding NodeCache.hasLive s calls)
    ∧ (runGets s calls).cacheStats.sets = s.cacheStats.sets
    ∧ (runGets s calls).cacheStats.deletes = s.cacheStats.deletes
    ∧ (getStats (runGets s calls)).totalRequests
        = (getStats (runGets s calls)).hits + (getStats (runGets s calls)).misses := by
  obtain ⟨hle, hh, hm, hs, hd⟩ := runGets_counters calls s hlocal hreg
  exact ⟨hle, hh, hm, hs, hd, rfl⟩

/-- Witness of `gets_counter_accuracy`: after `set("users", "1", 7)` and
`set("users", "3", undefined)`, the calls `get("users", "1")` and `get("users", "3")` (two hits)
and `get("users", "2")` (a miss). -/
theorem gets_counter_accuracy_witness :
    countFinding NodeCache.hasLive
        (set (set Service.new (Env.offline 0) "users" "1" (.num 7) [] none).2
          (Env.offline 0) "users" "3" .undefined [] none).2
        [⟨Env.offline 1, "users", "1", []⟩, ⟨Env.offline 1, "users", "3", []⟩,
          ⟨Env.offline 2, "users", "2", []⟩] = 2
    ∧ (runGets (set (set Service.new (Env.offline 0) "users" "1" (.num 7) [] none).2
          (Env.offline 0) "users" "3" .undefined [] none).2
        [⟨Env.offline 1, "users", "1", []⟩, ⟨Env.offline 1, "users", "3", []⟩,
          ⟨Env.offline 2, "users", "2", []⟩]).cacheStats.hits = 0 + 2
    ∧ (runGets (set (set Service.new (Env.offline 0) "users" "1" (.num 7) [] none).2
          (Env.offline 0) "users" "3" .undefined [] none).2
        [⟨Env.offline 1, "users", "1", []⟩, ⟨Env.offline 1, "users", "3", []⟩,
          ⟨Env.offline 2, "users", "2", []⟩]).cacheStats.misses = 0 + (3 - 2) := by
  have h := gets_counter_accuracy
    (set (set Service.new (Env.offline 0) "users" "1" (.num 7) [] none).2
      (Env.offline 0) "users" "3" .undefined [] none).2
    [⟨Env.offline 1, "users", "1", []⟩, ⟨Env.offline 1, "users", "3", []⟩,
      ⟨Env.offline 2, "users", "2", []⟩] rfl
    (by intro c hc; simp only [List.mem_cons, List.mem_nil_iff, or_false] at hc
        rcases hc with rfl | rfl | rfl <;> decide)
  have hcount : countFinding NodeCache.hasLive
      (set (set Service.new (Env.offline 0) "users" "1" (.num 7) [] none).2
        (Env.offline 0) "users" "3" .undefined [] none).2
      [⟨Env.offline 1, "users", "1", []⟩, ⟨Env.offline 1, "users", "3", []⟩,
        ⟨Env.offline 2, "users", "2", []⟩] = 2 := by
    decide
  refine ⟨hcount, ?_, ?_⟩
  · rw [h.2.1, hcount]; rfl
  · rw [h.2.2.1, hcount]; rfl

/-! ## C7: read-through on a cold key -/

/-- C7, as stated, fails for a producer that returns `undefined`: on a fresh service
`cachedQuery("users", "1", producer)` invokes the producer once and returns
`undefined`, and the `get` that follows at once returns `null`, not `undefined`. -/
theorem cachedQuery_undefined_counterexample :
    Service.new.redis = none
    ∧ Service.new.memoryCache.data.lookup "user:1" = none
    ∧ (cachedQuery Service.new (Env.offline 0) (Env.offline 0) "users" "1"
        (fun _ => .returned .undefined) [] none).producerCalls = 1
    ∧ (cachedQuery Service.new (Env.offline 0) (Env.offline 0) "users" "1"
        (fun _ => .returned .undefined) [] none).outcome = .returned .undefined
    ∧ (get (cachedQuery Service.new (Env.offline 0) (Env.offline 0) "users" "1"
        (fun _ => .returned .undefined) [] none).service
        (Env.offline 0) "users" "1" []).1 = .returned .null
    ∧ (get (cachedQuery Service.new (Env.offline 0) (Env.offline 0) "users" "1"
        (fun _ => .returned .undefined) [] none).service
        (Env.offline 0) "users" "1" []).1 ≠ .returned .undefined := by
  have hst : cacheStrategiesGet "users" = .own ⟨600, "user:"⟩ := by decide
  have hrun : cachedQuery Service.new (Env.offline 0) (Env.offline 0) "users" "1"
      (fun _ => .returned .undefined) [] none
      = ⟨.returned .undefined, Service.new.miss, 1⟩ := by
    simp [cachedQuery, get_local_cold (s := Service.new) rfl hst (Env.offline 0) "1" [] rfl,
      JsValue.isNull, JsValue.isUndefined]
  have hget : (get Service.new.miss (Env.offline 0) "users" "1" []).1 = .returned .null := by
    rw [get_local_cold (s := Service.new.miss) rfl hst (Env.offline 0) "1" [] rfl]
  rw [hrun]
  refine ⟨rfl, rfl, rfl, rfl, hget, ?_⟩
  rw [hget]
  intro h
  cases h

/-- C7, amended: on the in-memory backend, for every registered type, identifier and
params whose key is absent, and every producer that returns a value `v` other
than `undefined`, `cachedQuery(type, id, producer, params)` invokes the producer
exactly once and returns `v`, and a `get(type, id, params)` that follows within 120
seconds of the write-back returns `v`. -/
theorem cachedQuery_cold_key (s : Service) (envGet envSet envNext : Env)
    (type identifier : String) (queryFn : Unit → Outcome JsValue) (v : JsValue)
    (params : JsObject)
    (hlocal : s.redis = none) (hreg : type ∈ registeredTags)
    (hcold : ∀ key, generateKey type identifier params = .returned key →
      s.memoryCache.data.lookup key = none)
    (hprod : queryFn () = .returned v) (hv : v.isUndefined = false)
    (hsoon : envNext.now ≤ envSet.now + 120 * 1000) :
    (cachedQuery s envGet envSet type identifier queryFn params none).producerCalls = 1
    ∧ (cachedQuery s envGet envSet type identifier queryFn params none).outcome = .returned v
    ∧ (get (cachedQuery s envGet envSet type identifier queryFn params none).service
        envNext type identifier params).1 = .returned v := by
  obtain ⟨st, hlook⟩ := lookup_isSome_of_registered hreg
  have hst := cacheStrategiesGet_of_lookup hlook
  have hnone := hcold _ (generateKey_of_own hst identifier params)
  have hmiss : (s.miss).redis = none := hlocal
  have hfirst := get_local_cold hlocal hst envGet identifier params hnone
  by_cases hnull : v.isNull = true
  · have hvn := isNull_eq_true hnull
    subst hvn
    have hrun : cachedQuery s envGet envSet type identifier queryFn params none
        = ⟨.returned .null, s.miss, 1⟩ := by
      simp [cachedQuery, hfirst, hprod, JsValue.isNull]
    rw [hrun]
    refine ⟨rfl, rfl, ?_⟩
    rw [get_local_cold hmiss hst envNext identifier params hnone]
  · have hnull2 : v.isNull = false := by simpa using hnull
    have hrun : cachedQuery s envGet envSet type identifier queryFn params none
        = ⟨.returned v, (set s.miss envSet type identifier v params none).2, 1⟩ := by
      have hn : JsValue.null.isNull = true := rfl
      simp only [cachedQuery, hfirst, hprod, hn, hnull2, hv, if_true,
        Bool.not_false, Bool.and_self]
      rw [set_local_of_own hmiss hst]
    rw [hrun]
    exact ⟨rfl, rfl, (set_get_local_roundtrip s.miss envSet envNext hmiss hlook identifier v
      params hv hsoon).2⟩

/-- Witness of `cachedQuery_cold_key`: a fresh service and a producer returning `7`. -/
theorem cachedQuery_cold_key_witness :
    (cachedQuery Service.new (Env.offline 0) (Env.offline 1) "users" "1"
        (fun _ => .returned (.num 7)) [] none).producerCalls = 1
    ∧ (cachedQuery Service.new (Env.offline 0) (Env.offline 1) "users" "1"
        (fun _ => .returned (.num 7)) [] none).outcome = .returned (.num 7)
    ∧ (get (cachedQuery Service.new (Env.offline 0) (Env.offline 1) "users" "1"
        (fun _ => .returned (.num 7)) [] none).service
        (Env.offline 2) "users" "1" []).1 = .returned (.num 7) :=
  cachedQuery_cold_key Service.new (Env.offline 0) (Env.offline 1) (Env.offline 2)
    "users" "1" (fun _ => .returned (.num 7)) (.num 7) [] rfl (by decide)
    (fun _ _ => rfl) rfl rfl (by decide)

/-! ## C8: resolution of the time-to-live -/

/-- C8, as stated, fails at the overrides `0` and `NaN`, which are not `null`:
`set("users", "1", 7, {}, 0)` and `set("users", "1", 7, {}, NaN)` store the entry with the policy
ttl of 600 seconds, in memory as well as through the Redis client, and not with
a ttl of `0` or `NaN`. -/
theorem set_ttl_falsy_counterexample :
    (set Service.new (Env.offline 5) "users" "1" (.num 7) [] (some 0)).2.memoryCache
      = Service.new.memoryCache.set 5 "user:1" (.num 7) (some 600)
    ∧ (set Service.new (Env.offline 5) "users" "1" (.num 7) [] (some 0)).2.memoryCache
      ≠ Service.new.memoryCache.set 5 "user:1" (.num 7) (some 0)
    ∧ (set Service.new (Env.offline 5) "users" "1" (.num 7) [] (some .nan)).2.memoryCache
      = Service.new.memoryCache.set 5 "user:1" (.num 7) (some 600)
    ∧ (set Service.new (Env.offline 5) "users" "1" (.num 7) [] (some .nan)).2.memoryCache
      ≠ Service.new.memoryCache.set 5 "user:1" (.num 7) (some .nan)
    ∧ (set (init Service.new (some "production") .pingResolves).2 (Env.offline 5)
        "users" "1" (.num 7) [] (some 0)).2.redis
      = some ⟨[.ping, .setex "user:1" (some 600) (some "7")]⟩
    ∧ (set (init Service.new (some "production") .pingResolves).2 (Env.offline 5)
        "users" "1" (.num 7) [] (some .nan)).2.redis
      = some ⟨[.ping, .setex "user:1" (some 600) (some "7")]⟩ := by
  have hst : cacheStrategiesGet "users" = .own ⟨600, "user:"⟩ := by decide
  have hkey : generateKey "users" "1" [] = .returned "user:1" := by decide
  have hzero : (set Service.new (Env.offline 5) "users" "1" (.num 7) [] (some 0)).2.memoryCache
      = Service.new.memoryCache.set 5 "user:1" (.num 7) (some 600) := by
    rw [set_local_of_own rfl hst]
    rfl
  have hnan : (set Service.new (Env.offline 5) "users" "1" (.num 7) []
      (some .nan)).2.memoryCache
      = Service.new.memoryCache.set 5 "user:1" (.num 7) (some 600) := by
    rw [set_local_of_own rfl hst]
    rfl
  refine ⟨hzero, ?_, hnan, ?_, ?_, ?_⟩
  · rw [hzero]
    intro h
    have ht := congrArg (fun c => (c.data.lookup "user:1").map CacheEntry.t) h
    revert ht
    decide
  · rw [hnan]
    intro h
    have ht := congrArg (fun c => (c.data.lookup "user:1").map CacheEntry.t) h
    revert ht
    decide
  · simp only [init, initRedis, Service.new, set, hkey, hst, Service.sendRedis, Env.offline]
    rfl
  · simp only [init, initRedis, Service.new, set, hkey, hst, Service.sendRedis, Env.offline]
    rfl

/-- C8, amended: for every registered type, `set(type, id, value, params, ttlOverride)` writes
the entry to the active backend with time-to-live exactly `ttlOverride` for every
`ttlOverride` that is a nonzero safe integer, `Infinity` or `-Infinity`, and with the
policy ttl of the type when `ttlOverride` is `null`, `0` or `NaN`. -/
theorem set_ttl_resolution (s : Service) (env : Env) (type identifier : String)
    (value : JsValue) (params : JsObject) (st : Strategy)
    (hlook : cacheStrategies.lookup type = some st) :
    generateKey type identifier params
      = .returned (st.keyPrefix ++ identifier ++ paramString params)
    ∧ (∀ (n : Int) (hs : n.natAbs ≤ maxSafeInteger), n ≠ 0 →
        writesWithTtl s (set s env type identifier value params (some (.int n hs))).2
          env.now (st.keyPrefix ++ identifier ++ paramString params) value (.int n hs))
    ∧ writesWithTtl s (set s env type identifier value params (some .infinity)).2 env.now
        (st.keyPrefix ++ identifier ++ paramString params) value .infinity
    ∧ writesWithTtl s (set s env type identifier value params (some .negInfinity)).2 env.now
        (st.keyPrefix ++ identifier ++ paramString params) value .negInfinity
    ∧ writesWithTtl s (set s env type identifier value params none).2 env.now
        (st.keyPrefix ++ identifier ++ paramString params) value st.ttl
    ∧ writesWithTtl s (set s env type identifier value params (some 0)).2 env.now
        (st.keyPrefix ++ identifier ++ paramString params) value st.ttl
    ∧ writesWithTtl s (set s env type identifier value params (some .nan)).2 env.now
        (st.keyPrefix ++ identifier ++ paramString params) value st.ttl := by
  have hst := cacheStrategiesGet_of_lookup hlook
  refine ⟨generateKey_of_own hst identifier params, ?_, ?_, ?_, ?_, ?_, ?_⟩
  · intro n hs hn
    exact set_writes_resolved_ttl s env hst identifier value params _ _
      (by simp [orTtl, JsNumber.truthy, hn])
  · exact set_writes_resolved_ttl s env hst identifier value params _ _ rfl
  · exact set_writes_resolved_ttl s env hst identifier value params _ _ rfl
  · exact set_writes_resolved_ttl s env hst identifier value params none st.ttl rfl
  · exact set_writes_resolved_ttl s env hst identifier value params (some 0) st.ttl rfl
  · exact set_writes_resolved_ttl s env hst identifier value params (some .nan) st.ttl rfl

/-- Witness of `set_ttl_resolution`: the type `users` on a fresh service. -/
theorem set_ttl_resolution_witness :
    cacheStrategies.lookup "users" = some ⟨600, "user:"⟩
    ∧ writesWithTtl Service.new
        (set Service.new (Env.offline 5) "users" "1" (.num 7) [] (some 120)).2 5
        ("user:" ++ "1" ++ paramString []) (.num 7) 120
    ∧ writesWithTtl Service.new
        (set Service.new (Env.offline 5) "users" "1" (.num 7) [] none).2 5
        ("user:" ++ "1" ++ paramString []) (.num 7) 600
    ∧ writesWithTtl Service.new
        (set Service.new (Env.offline 5) "users" "1" (.num 7) [] (some .nan)).2 5
        ("user:" ++ "1" ++ paramString []) (.num 7) 600 := by
  have h := set_ttl_resolution Service.new (Env.offline 5) "users" "1" (.num 7) []
    ⟨600, "user:"⟩ (by decide)
  exact ⟨by decide, h.2.1 120 (by decide) (by decide), h.2.2.2.2.1, h.2.2.2.2.2.2⟩

/-! ## C9: the policy table -/

/-- C9, as stated, fails: the tag `posts` is not accepted by `generateKey`, which throws
for it; the table registers `publications` instead, and that tag is accepted. -/
theorem policy_table_posts_counterexample :
    "posts" ∉ registeredTags
    ∧ generateKey "posts" "1" [] = .threw "Type de cache 'posts' non supporté"
    ∧ "publications" ∈ registeredTags
    ∧ generateKey "publications" "1" [] = .returned "pub:1" := by
  refine ⟨by decide, ?_, by decide, by decide⟩
  exact generateKey_of_undefined (by decide) "1" []

/-- C9, amended: the tags registered in the policy table are exactly `users`,
`publications`, `conversations`, `messages`, `events`, `analytics` and `reports`;
`generateKey` accepts each of them, and a `set` with no ttl override writes to the
active backend with a ttl of 600, 300, 180, 120, 900, 3600 and 7200 seconds
respectively. -/
theorem policy_table_ttls :
    registeredTags = ["users", "publications", "conversations", "messages", "events",
      "analytics", "reports"]
    ∧ ∀ p ∈ [("users", 600), ("publications", 300), ("conversations", 180),
        ("messages", 120), ("events", 900), ("analytics", 3600), ("reports", 7200)],
      ∀ (s : Service) (env : Env) (identifier : String) (value : JsValue)
        (params : JsObject),
        ∃ key, generateKey p.1 identifier params = .returned key
          ∧ writesWithTtl s (set s env p.1 identifier value params none).2 env.now key
              value p.2 := by
  refine ⟨rfl, ?_⟩
  intro p hp s env identifier value params
  have hmap : (cacheStrategies.lookup p.1).map Strategy.ttl = some p.2 := by
    simp only [List.mem_cons, List.mem_nil_iff, or_false] at hp
    rcases hp with h | h | h | h | h | h | h <;> subst h <;> decide
  have hkey : ∃ st, cacheStrategiesGet p.1 = .own st ∧ st.ttl = p.2 := by
    cases hl : cacheStrategies.lookup p.1 with
    | none => simp [hl] at hmap
    | some st =>
      refine ⟨st, cacheStrategiesGet_of_lookup hl, ?_⟩
      simpa [hl] using hmap
  obtain ⟨st, hst, httl⟩ := hkey
  refine ⟨_, generateKey_of_own hst identifier params, ?_⟩
  rw [← httl]
  exact set_writes_resolved_ttl s env hst identifier value params none st.ttl rfl

/-- Witness of `policy_table_ttls`: the type `messages` with its ttl of 120 seconds. -/
theorem policy_table_ttls_witness :
    ∃ key, generateKey "messages" "1" [] = .returned key
      ∧ writesWithTtl Service.new
          (set Service.new (Env.offline 5) "messages" "1" (.num 7) [] none).2 5 key
          (.num 7) 120 :=
  policy_table_ttls.2 ("messages", 120) (by decide) Service.new (Env.offline 5) "1"
    (.num 7) []

/-! ## C10: invalidation by pattern -/

/-- C10: on the in-memory backend, for every store content and every pattern,
`invalidatePattern(pattern)` returns `true`, leaves the counters `hits`, `misses`, `sets`
and `deletes` unchanged and empties the table, so that afterwards no `get`
retrieves an entry, whatever its key. -/
theorem invalidatePattern_local_clears (s : Service) (env : Env) (pattern : String)
    (hlocal : s.redis = none) :
    (invalidatePattern s env pattern).1 = .returned true
    ∧ (invalidatePattern s env pattern).2.cacheStats = s.cacheStats
    ∧ (invalidatePattern s env pattern).2.memoryCache.data = []
    ∧ ∀ (env2 : Env) (type identifier : String) (params : JsObject),
        (get (invalidatePattern s env pattern).2 env2 type identifier params).1
          = .returned .null := by
  have hrun : invalidatePattern s env pattern
      = (.returned true, { s with memoryCache := s.memoryCache.flushAll }) := by
    simp [invalidatePattern, hlocal]
  rw [hrun]
  refine ⟨rfl, rfl, rfl, ?_⟩
  intro env2 type identifier params
  exact get_after_flush _ env2 type identifier params hlocal rfl

/-- Witness of `invalidatePattern_local_clears`: with `user:1`, `user:2` and `pub:1` set,
`invalidatePattern("user:*")` removes all three and keeps the counters. -/
theorem invalidatePattern_local_clears_witness :
    threeEntries.redis = none
    ∧ threeEntries.memoryCache.data.map Prod.fst = ["pub:1", "user:2", "user:1"]
    ∧ (invalidatePattern threeEntries (Env.offline 1) "user:*").1 = .returned true
    ∧ (invalidatePattern threeEntries (Env.offline 1) "user:*").2.cacheStats
        = threeEntries.cacheStats
    ∧ (invalidatePattern threeEntries (Env.offline 1) "user:*").2.memoryCache.data = []
    ∧ (get (invalidatePattern threeEntries (Env.offline 1) "user:*").2 (Env.offline 1)
        "users" "1" []).1 = .returned .null
    ∧ (get (invalidatePattern threeEntries (Env.offline 1) "user:*").2 (Env.offline 1)
        "users" "2" []).1 = .returned .null
    ∧ (get (invalidatePattern threeEntries (Env.offline 1) "user:*").2 (Env.offline 1)
        "publications" "1" []).1 = .returned .null := by
  have h := invalidatePattern_local_clears threeEntries (Env.offline 1) "user:*" rfl
  exact ⟨rfl, by decide, h.1, h.2.1, h.2.2.1, h.2.2.2 _ _ _ _, h.2.2.2 _ _ _ _,
    h.2.2.2 _ _ _ _⟩

/-! ## C11: deleting an absent key -/

/-- C11: on the in-memory backend, for every registered type, identifier and params
whose key is absent from the table, `delete(type, id, params)` returns `true` without
throwing, increases `deletes` by exactly 1 and leaves the table and the counters
`hits`, `misses` and `sets` unchanged; a second `delete` right after it returns `true`
again and brings `deletes` to two more than at the start. -/
theorem delete_absent_key (s : Service) (env env2 : Env) (type identifier : String)
    (params : JsObject)
    (hlocal : s.redis = none) (hreg : type ∈ registeredTags)
    (habsent : ∀ key, generateKey type identifier params = .returned key →
      s.memoryCache.data.lookup key = none) :
    (delete s env type identifier params).1 = .returned true
    ∧ (delete s env type identifier params).2.cacheStats.deletes = s.cacheStats.deletes + 1
    ∧ (delete s env type identifier params).2.memoryCache = s.memoryCache
    ∧ (delete s env type identifier params).2.cacheStats.hits = s.cacheStats.hits
    ∧ (delete s env type identifier params).2.cacheStats.misses = s.cacheStats.misses
    ∧ (delete s env type identifier params).2.cacheStats.sets = s.cacheStats.sets
    ∧ (delete (delete s env type identifier params).2 env2 type identifier params).1
        = .returned true
    ∧ (delete (delete s env type identifier params).2 env2 type identifier
        params).2.cacheStats.deletes = s.cacheStats.deletes + 2
    ∧ (delete (delete s env type identifier params).2 env2 type identifier
        params).2.memoryCache = s.memoryCache := by
  obtain ⟨st, hlook⟩ := lookup_isSome_of_registered hreg
  have hst := cacheStrategiesGet_of_lookup hlook
  have hnone := habsent _ (generateKey_of_own hst identifier params)
  have hdel := NodeCache.del_absent s.memoryCache _ hnone
  have hfirst : delete s env type identifier params
      = (.returned true, Service.countDelete s) := by
    rw [delete_local_of_own hlocal hst, hdel]
  have hlocal2 : (Service.countDelete s).redis = none := hlocal
  have hsecond : delete (Service.countDelete s) env2 type identifier params
      = (.returned true, Service.countDelete (Service.countDelete s)) := by
    rw [delete_local_of_own hlocal2 hst]
    have hmc : (Service.countDelete s).memoryCache = s.memoryCache := rfl
    rw [hmc, hdel]
    rfl
  have htwice : delete (delete s env type identifier params).2 env2 type identifier params
      = (.returned true, Service.countDelete (Service.countDelete s)) := by
    rw [hfirst]
    exact hsecond
  rw [htwice, hfirst]
  exact ⟨rfl, rfl, rfl, rfl, rfl, rfl, rfl, rfl, rfl⟩

/-- Witness of `delete_absent_key`: `delete("users", "9")` twice, on the service that holds
`user:1`, `user:2` and `pub:1`. -/
theorem delete_absent_key_witness :
    threeEntries.redis = none
    ∧ "users" ∈ registeredTags
    ∧ threeEntries.memoryCache.data.lookup "user:9" = none
    ∧ (delete threeEntries (Env.offline 1) "users" "9" []).1 = .returned true
    ∧ (delete threeEntries (Env.offline 1) "users" "9" []).2.cacheStats.deletes
        = threeEntries.cacheStats.deletes + 1
    ∧ (delete threeEntries (Env.offline 1) "users" "9" []).2.memoryCache
        = threeEntries.memoryCache
    ∧ (delete (delete threeEntries (Env.offline 1) "users" "9" []).2 (Env.offline 2)
        "users" "9" []).1 = .returned true := by
  have hkey : generateKey "users" "9" [] = .returned "user:9" := by decide
  have h := delete_absent_key threeEntries (Env.offline 1) (Env.offline 2) "users" "9" []
    rfl (by decide)
    (by
      intro key hk
      rw [hkey] at hk
      cases hk
      rfl)
  exact ⟨rfl, by decide, rfl, h.1, h.2.1, h.2.2.1, h.2.2.2.2.2.2.1⟩

/-! ## C12: collision-free keys -/

/-- C12, as stated, fails: for the registered type `users`, the identifier `1` with
params `{a: 1}` and the identifier `1:{"a":1}` with no params get the same key; so do
the identifier `1` with params `{a: undefined}` and with params `{b: undefined}`, and
the identifier `1` with params `{a: NaN}` and with params `{a: null}`. -/
theorem generateKey_collision_counterexample :
    "users" ∈ registeredTags
    ∧ ("1" : String) ≠ "1:\x7b\"a\":1\x7d"
    ∧ ¬ List.Perm ([("a", .num 1)] : JsObject) []
    ∧ generateKey "users" "1" [("a", .num 1)] = .returned "user:1:\x7b\"a\":1\x7d"
    ∧ generateKey "users" "1:\x7b\"a\":1\x7d" [] = .returned "user:1:\x7b\"a\":1\x7d"
    ∧ ¬ List.Perm ([("a", .undefined)] : JsObject) [("b", .undefined)]
    ∧ generateKey "users" "1" [("a", .undefined)] = .returned "user:1:\x7b\x7d"
    ∧ generateKey "users" "1" [("b", .undefined)] = .returned "user:1:\x7b\x7d"
    ∧ ¬ List.Perm ([("a", .num .nan)] : JsObject) [("a", .null)]
    ∧ generateKey "users" "1" [("a", .num .nan)] = .returned "user:1:\x7b\"a\":null\x7d"
    ∧ generateKey "users" "1" [("a", .null)] = .returned "user:1:\x7b\"a\":null\x7d" := by
  refine ⟨by decide, by decide, ?_, by decide, by decide, ?_, by decide, by decide, ?_,
    by decide, by decide⟩
  · intro h
    have := h.length_eq
    simp at this
  · intro h
    have := h.subset (List.mem_cons_self _ _)
    simp at this
  · intro h
    have := h.subset (List.mem_cons_self _ _)
    simp at this

/-- C12, amended: `generateKey` is injective on triples of a registered type, a string
identifier that contains no colon, and params that are JSON data (`null`,
booleans, safe integers with `-0` taken as `0`, strings, arrays and objects of
these, so no `undefined`, function, symbol, `NaN` or infinity at any depth): two
such triples that differ in
the type, in the identifier or in the list of params key/value pairs get two
different keys. -/
theorem generateKey_injective (type1 type2 identifier1 identifier2 : String)
    (params1 params2 : JsObject)
    (hreg1 : type1 ∈ registeredTags) (hreg2 : type2 ∈ registeredTags)
    (hid1 : ':' ∉ identifier1.data) (hid2 : ':' ∉ identifier2.data)
    (hp1 : propsJsonData params1 = true) (hp2 : propsJsonData params2 = true)
    (hdiff : type1 ≠ type2 ∨ identifier1 ≠ identifier2 ∨ params1 ≠ params2) :
    ∃ key1 key2, generateKey type1 identifier1 params1 = .returned key1
      ∧ generateKey type2 identifier2 params2 = .returned key2
      ∧ key1 ≠ key2 := by
  obtain ⟨st1, hl1⟩ := lookup_isSome_of_registered hreg1
  obtain ⟨st2, hl2⟩ := lookup_isSome_of_registered hreg2
  refine ⟨_, _, generateKey_of_own (cacheStrategiesGet_of_lookup hl1) identifier1 params1,
    generateKey_of_own (cacheStrategiesGet_of_lookup hl2) identifier2 params2, ?_⟩
  intro hkey
  have hdata := congrArg String.data hkey
  rw [key_data, key_data] at hdata
  have htype := type_eq_of_prefix_append_eq hl1 hl2 _ _ hdata
  subst htype
  have hst : st1 = st2 := Option.some.inj (hl1.symm.trans hl2)
  subst hst
  obtain ⟨hid, hps⟩ := identifier_split identifier1 identifier2 params1 params2 hid1 hid2
    (List.append_cancel_left hdata)
  have hparams := paramString_injective params1 params2 hp1 hp2 hps
  rcases hdiff with h | h | h
  · exact h rfl
  · exact h hid
  · exact h hparams

/-- Witness of `generateKey_injective`: the identifiers `1` and `2` under `users` with
params `{a: 1}`. -/
theorem generateKey_injective_witness :
    ∃ key1 key2, generateKey "users" "1" [("a", .num 1)] = .returned key1
      ∧ generateKey "users" "2" [("a", .num 1)] = .returned key2
      ∧ key1 ≠ key2 :=
  generateKey_injective "users" "users" "1" "2" [("a", .num 1)] [("a", .num 1)]
    (by decide) (by decide) (by decide) (by decide) rfl rfl (Or.inr (Or.inl (by decide)))

end CacheService
